import Mathlib

/-!
Verification development for the optimal tower-defense maze builder.

The Python source is shallowly embedded: tile types and nodes become
inductive types and structures, the mutable node graph becomes an explicit
`GraphState` (a list of nodes, looked up by coordinates), and every
stateful routine becomes a function that threads the state. Loops whose
termination is not structural are given an explicit fuel argument; a
`none` result models a run that never leaves the loop (or a Python-level
crash such as a `KeyError`, noted where it applies).
-/

namespace TDMaze

/-- Embeds `Coords` from `tiles/tile.py`: an immutable pair of integers
with equality by value. -/
structure Coords where
  x : Int
  y : Int
deriving DecidableEq, Repr

/-- Embeds the tile-type hierarchy of `tiles/tile_type.py` as an
enumeration of its concrete classes. -/
inductive TType where
  | basic
  | unbuildable
  | void
  | spawn
  | exit
  | occupied
  | path
deriving DecidableEq, Repr

/-- `allow_building` static attribute of each tile type. -/
def TType.allow_building : TType → Bool
  | .basic => true
  | .unbuildable => false
  | .void => false
  | .spawn => false
  | .exit => false
  | .occupied => false
  | .path => true

/-- `is_traversable` static attribute of each tile type. -/
def TType.is_traversable : TType → Bool
  | .basic => true
  | .unbuildable => true
  | .void => false
  | .spawn => true
  | .exit => true
  | .occupied => false
  | .path => true

/-- `is_spawn` static attribute of each tile type. -/
def TType.is_spawn : TType → Bool
  | .spawn => true
  | _ => false

/-- `is_exit` static attribute of each tile type. -/
def TType.is_exit : TType → Bool
  | .exit => true
  | _ => false

/-- Embeds `Node` from `utils/graph_algorithms.py`. The Python object
holds a set of references to neighbor nodes; here neighbors are stored as
the list of their coordinates (in insertion order) and are resolved
through the enclosing `GraphState`. -/
structure Node where
  coords : Coords
  ttype : TType
  visited : Bool
  distance : Int
  neighbors : List Coords
deriving DecidableEq, Repr

/-- The mutable graph: all nodes created for one map, in the insertion
order of the Python dictionary that owns them. -/
abbrev GraphState := List Node

/-- Dictionary lookup `nodes[coords]` (also following a neighbor
reference). -/
def findNode (st : GraphState) (c : Coords) : Option Node :=
  st.find? (fun n => n.coords == c)

/-- In-place mutation of the node at `c` (every alias sees the update,
as with the shared Python object). -/
def setNode (st : GraphState) (c : Coords) (f : Node → Node) : GraphState :=
  st.map (fun n => if n.coords == c then f n else n)

/-- `node.visited = b` through the state. -/
def setVisited (st : GraphState) (c : Coords) (b : Bool) : GraphState :=
  setNode st c (fun n => { n with visited := b })

/-- `node.distance = d` through the state. -/
def setDistance (st : GraphState) (c : Coords) (d : Int) : GraphState :=
  setNode st c (fun n => { n with distance := d })

/-- `node.ttype = t` through the state. -/
def setTType (st : GraphState) (c : Coords) (t : TType) : GraphState :=
  setNode st c (fun n => { n with ttype := t })

/-- Embeds `unvisit_nodes` from `utils/graph_algorithms.py` applied to
the nodes named by `cs`. -/
def unvisitCoords (st : GraphState) (cs : List Coords) : GraphState :=
  st.map (fun n => if cs.contains n.coords then { n with visited := false } else n)

/-- Embeds `reset_nodes` from `utils/graph_algorithms.py` applied to the
nodes named by `cs` (clears `visited` and `distance`, keeps neighbors). -/
def resetCoords (st : GraphState) (cs : List Coords) : GraphState :=
  st.map (fun n =>
    if cs.contains n.coords then { n with visited := false, distance := 0 } else n)

/-! ### Python list comparison and `Distances` -/

/-- Python's `list.__gt__` on integer lists: lexicographic, a strict
prefix is smaller. -/
def pyListGt : List Int → List Int → Bool
  | [], _ => false
  | _ :: _, [] => true
  | x :: xs, y :: ys =>
    if x > y then true
    else if x < y then false
    else pyListGt xs ys

/-- Python's `list.sort()` on integers: ascending order. -/
def pySort (l : List Int) : List Int :=
  l.insertionSort (· ≤ ·)

/-- Embeds `Distances.__gt__` from `utils/graph_algorithms.py`: both
operands are sorted ascending, then compared as Python lists. -/
def distGt (a b : List Int) : Bool :=
  pyListGt (pySort a) (pySort b)

/-- Embeds `Distances.__eq__`: both operands are sorted ascending, then
compared for list equality. -/
def distEq (a b : List Int) : Bool :=
  pySort a == pySort b

/-! ### Grid-to-graph construction (`tiles_to_nodes`, `connect_all_neighboring_nodes`) -/

/-- A tile of the grid: its coordinates and type (`tiles/tile.py`). -/
abbrev Tile := Coords × TType

/-- Embeds `tiles_to_nodes`: one fresh `Node` per tile, in tile order. -/
def tilesToNodes (tiles : List Tile) : GraphState :=
  tiles.map (fun t => { coords := t.1, ttype := t.2, visited := false,
                        distance := 0, neighbors := [] })

/-- `NEIGHBOR_DELTAS` from `utils/graph_algorithms.py`. -/
def neighborDeltas (neighbor_count : Nat) : List (Int × Int) :=
  if neighbor_count == 4 then [(0, 1), (-1, 0), (1, 0), (0, -1)]
  else [(-1, 1), (0, 1), (1, 1), (-1, 0), (1, 0), (-1, -1), (0, -1), (1, -1)]

/-- Embeds `connect_all_neighboring_nodes`: each node's neighbor set
receives, in delta order, every offset coordinate present in the node
dictionary. The Python loop only ever appends to the (initially empty)
neighbor sets, so the per-node formulation below produces the same final
neighbor lists. -/
def connectAllNeighboringNodes (st : GraphState) (neighbor_count : Nat) : GraphState :=
  let keys := st.map (·.coords)
  st.map (fun n =>
    { n with neighbors :=
        (neighborDeltas neighbor_count).filterMap (fun d =>
          let c2 : Coords := ⟨n.coords.x + d.1, n.coords.y + d.2⟩
          if keys.contains c2 then some c2 else none) })

/-- Builds the `coordinated_nodes` dictionary handed to the builders:
`tiles_to_nodes` followed by `connect_all_neighboring_nodes`. -/
def buildGraph (tiles : List Tile) (neighbor_count : Nat) : GraphState :=
  connectAllNeighboringNodes (tilesToNodes tiles) neighbor_count

/-! ### Breadth-first search (`get_shortest_distance_any`)

The Python `while not queue.empty()` loop is embedded with an explicit
fuel argument. Every dequeued element was previously enqueued, every
enqueue marks a previously unvisited node visited, and the start node is
marked before being enqueued, so a run can pop at most `st.length + 1`
elements; the fuel `st.length + 2` supplied below is therefore never
exhausted and the `(none, st)` fuel case coincides with the
queue-exhausted (`None`) result. -/

/-- The neighbor `for`-loop body of `get_shortest_distance_any`: marks
and enqueues fresh traversable neighbors, returning early (`some` hop
count) when one of them has the ending type. -/
def bfsExpand (e : TType) (nd : Int) (ncs : List Coords)
    (st : GraphState) (q : List Coords) : Option Int × GraphState × List Coords :=
  ncs.foldl (fun acc nc =>
    match acc with
    | (some d, st1, q1) => (some d, st1, q1)
    | (none, st1, q1) =>
      match findNode st1 nc with
      | none => (none, st1, q1)
      | some nb =>
        if !nb.visited && nb.ttype.is_traversable then
          if nb.ttype == e then (some (nd + 1), st1, q1)
          else (none, setDistance (setVisited st1 nc true) nc (nd + 1), q1 ++ [nc])
        else (none, st1, q1)) (none, st, q)

/-- The dequeuing `while` loop of `get_shortest_distance_any`. -/
def bfsLoop (e : TType) : Nat → GraphState → List Coords → Option Int × GraphState
  | 0, st, _ => (none, st)
  | _ + 1, st, [] => (none, st)
  | fuel + 1, st, c :: q =>
    match findNode st c with
    | none => bfsLoop e fuel st q
    | some node =>
      match bfsExpand e node.distance node.neighbors st q with
      | (some d, st2, _) => (some d, st2)
      | (none, st2, q2) => bfsLoop e fuel st2 q2

/-- Embeds `get_shortest_distance_any` from `utils/graph_algorithms.py`. -/
def getShortestDistanceAny (st : GraphState) (start : Coords) (e : TType) :
    Option Int × GraphState :=
  let st1 := setDistance (setVisited st start true) start 0
  bfsLoop e (st1.length + 2) st1 [start]

/-! ### Shortest-path node collection (`get_nodes_on_shortest_paths`) -/

/-- Embeds `collect_all_paths`: a recursive depth-first walk following
neighbors of strictly decreasing `distance`, never re-descending to the
distance-0 source. The recursion depth is bounded by the (positive)
distance of the starting node, so the fuel supplied by the callers is
never exhausted on states produced by the search. -/
def collectAllPaths : Nat → GraphState → Coords → List Coords → Option (List Coords)
  | 0, _, _, _ => none
  | fuel + 1, st, c, collected₀ =>
    match findNode st c with
    | none => some collected₀
    | some node =>
      node.neighbors.foldl (fun acc nc =>
        match acc with
        | none => none
        | some collected =>
          match findNode st nc with
          | none => some collected
          | some nb =>
            if nb.ttype.is_traversable && nb.distance == node.distance - 1
                && !(collected.contains nc) then
              if nb.distance == 0 then some collected
              else collectAllPaths fuel st nc (collected ++ [nc])
            else some collected) (some collected₀)

/-- `path_nodes.update(...)`: set union keeping first-insertion order. -/
def unionCoords (a b : List Coords) : List Coords :=
  a ++ b.filter (fun c => !(a.contains c))

/-- The neighbor-marking `for` loop of `get_nodes_on_shortest_paths`
(no early return: it only marks and enqueues). -/
def markExpand (nd : Int) (ncs : List Coords) (st : GraphState) (q : List Coords) :
    GraphState × List Coords :=
  ncs.foldl (fun acc nc =>
    match findNode acc.1 nc with
    | none => acc
    | some nb =>
      if !nb.visited && nb.ttype.is_traversable then
        (setDistance (setVisited acc.1 nc true) nc (nd + 1), acc.2 ++ [nc])
      else acc) (st, q)

/-- The secondary loop of `get_nodes_on_shortest_paths` that drains the
queue looking for further ending nodes tied at the minimal distance,
stopping after the first strictly farther element. -/
def tieLoop (e : TType) (st : GraphState) (d : Int) :
    List Coords → List Coords → Option (List Coords)
  | [], path => some path
  | c :: q, path =>
    match findNode st c with
    | none => tieLoop e st d q path
    | some node =>
      match (if node.ttype == e then
              (collectAllPaths (st.length + 2) st c []).map (unionCoords path)
             else some path) with
      | none => none
      | some path2 =>
        if node.distance > d then some path2 else tieLoop e st d q path2

/-- The main dequeuing loop of `get_nodes_on_shortest_paths`. -/
def nspLoop (e : TType) : Nat → GraphState → List Coords →
    Option (Option (Int × List Coords) × GraphState)
  | 0, _, _ => none
  | _ + 1, st, [] => some (none, st)
  | fuel + 1, st, c :: q =>
    match findNode st c with
    | none => nspLoop e fuel st q
    | some node =>
      if node.ttype == e then
        match collectAllPaths (st.length + 2) st c [] with
        | none => none
        | some path0 =>
          match tieLoop e st node.distance q path0 with
          | none => none
          | some path => some (some (node.distance, path), st)
      else
        match markExpand node.distance node.neighbors st q with
        | (st2, q2) => nspLoop e fuel st2 q2

/-- Embeds `get_nodes_on_shortest_paths`. -/
def getNodesOnShortestPaths (st : GraphState) (start : Coords) (e : TType) :
    Option (Option (Int × List Coords) × GraphState) :=
  let st1 := setDistance (setVisited st start true) start 0
  nspLoop e (st1.length + 2) st1 [start]

/-- Embeds `get_nodes_on_shortest_paths_multiple`: one collection per
starting node with a full `reset_nodes` in between, short-circuiting with
a falsy distance (`None`, or `0` for a start of the ending type) on the
first unsolvable source. The first component `none` models the falsy
distance of the Python return value. -/
def getNodesOnShortestPathsMultiple (e : TType) (srcs : List Coords)
    (cur : List Coords) (st : GraphState) :
    Option ((Option (List Int) × List Coords) × GraphState) :=
  match srcs with
  | [] => some ((some [], []), st)
  | _ :: _ => nspMultiLoop e srcs cur st [] []
where
  /-- The source loop, accumulating distances and the path-node union. -/
  nspMultiLoop (e : TType) : List Coords → List Coords → GraphState →
      List Int → List Coords → Option ((Option (List Int) × List Coords) × GraphState)
  | [], _, st, dists, path => some ((some dists, path), st)
  | s :: rest, cur, st, dists, path =>
    let st1 := resetCoords st cur
    match getNodesOnShortestPaths st1 s e with
    | none => none
    | some (res, st2) =>
      match res with
      | none => some ((none, []), st2)
      | some (d, nodes) =>
        if d == 0 then some ((none, nodes), st2)
        else nspMultiLoop e rest cur st2 (dists ++ [d]) (unionCoords path nodes)

/-! ### Multi-source distances (`get_distances`, `get_maxmin_distance`) -/

/-- Python truthiness of an optional integer (`None` and `0` are falsy). -/
def pyFalsyOptInt : Option Int → Bool
  | none => true
  | some v => v == 0

/-- Embeds `get_distances` from `utils/graph_algorithms.py`: one
shortest distance per starting node, `unvisit_nodes` on the current
nodes before each, returning `None` as soon as one distance fails the
`if not dist` truthiness test. -/
def getDistances (e : TType) (srcs : List Coords) (cur : List Coords)
    (st : GraphState) : Option (List Int) × GraphState :=
  match srcs with
  | [] => (some [], st)
  | s :: rest =>
    let r := getShortestDistanceAny (unvisitCoords st cur) s e
    if pyFalsyOptInt r.1 then (none, r.2)
    else
      let rr := getDistances e rest cur r.2
      ((rr.1).map (fun l => (r.1.getD 0) :: l), rr.2)

/-- Embeds `get_maxmin_distance`: the greatest per-source shortest
distance, with the source's exact `if not maxmin_distance or (dist and
dist > maxmin_distance)` update. -/
def getMaxminDistance (e : TType) (srcs : List Coords) (cur : List Coords)
    (st : GraphState) : Option Int × GraphState :=
  maxminLoop e srcs cur st none
where
  maxminLoop (e : TType) : List Coords → List Coords → GraphState → Option Int →
      Option Int × GraphState
  | [], _, st, maxmin => (maxmin, st)
  | s :: rest, cur, st, maxmin =>
    let st1 := unvisitCoords st cur
    match getShortestDistanceAny st1 s e with
    | (dist, st2) =>
      let maxmin2 :=
        if pyFalsyOptInt maxmin then dist
        else if !(pyFalsyOptInt dist) && dist.getD 0 > maxmin.getD 0 then dist
        else maxmin
      maxminLoop e rest cur st2 maxmin2

/-! ### Depth-first search and clustering -/

/-- Embeds `depth_first_search_any_ttype`: marks the current node
visited, then scans neighbors, returning the first unvisited traversable
neighbor of the ending type, or recursing into it otherwise. The outer
`Option` is the fuel guard (each recursion marks a fresh node visited,
so the fuel supplied by callers is never exhausted). -/
def dfsAnyTType : Nat → GraphState → Coords → TType →
    Option (Option Coords × GraphState)
  | 0, _, _, _ => none
  | fuel + 1, st, c, e =>
    let st1 := setVisited st c true
    match findNode st1 c with
    | none => some (none, st1)
    | some node =>
      node.neighbors.foldl (fun acc nc =>
        match acc with
        | none => none
        | some (some r, st2) => some (some r, st2)
        | some (none, st2) =>
          match findNode st2 nc with
          | none => some (none, st2)
          | some nb =>
            if !nb.visited && nb.ttype.is_traversable then
              if nb.ttype == e then some (some nc, st2)
              else dfsAnyTType fuel st2 nc e
            else some (none, st2)) (some (none, st1))

/-- Embeds `get_cluster_of_nodes`: the connected component of
same-typed, unvisited neighbors, in discovery order. -/
def getClusterOfNodes : Nat → GraphState → Coords → Option (List Coords × GraphState)
  | 0, _, _ => none
  | fuel + 1, st, c =>
    let st1 := setVisited st c true
    match findNode st1 c with
    | none => some ([c], st1)
    | some node =>
      node.neighbors.foldl (fun acc nc =>
        match acc with
        | none => none
        | some (cluster, st2) =>
          match findNode st2 nc with
          | none => some (cluster, st2)
          | some nb =>
            if nb.ttype == node.ttype && !nb.visited then
              match getClusterOfNodes fuel st2 nc with
              | none => none
              | some (sub, st3) => some (cluster ++ sub, st3)
            else some (cluster, st2)) (some ([c], st1))

/-- Embeds `get_center_coords`: cluster members flanked by same-typed
neighbors on both sides of an axis. Returns `none` where the Python code
would raise (`max` of an empty list), which cannot happen for the
clusters of size at least two it is called on. -/
def getCenterCoords (st : GraphState) (cs : List Coords) : Option (List Coords) :=
  cs.foldl (fun acc c =>
    match acc with
    | none => none
    | some centers =>
      match findNode st c with
      | none => some centers
      | some node =>
        let sameNb := node.neighbors.filterMap (fun nc =>
          match findNode st nc with
          | none => none
          | some nb => if nb.ttype == node.ttype then some nb.coords else none)
        match sameNb with
        | [] => none
        | n0 :: ns =>
          let xs := (n0 :: ns).map (·.x)
          let ys := (n0 :: ns).map (·.y)
          let xMax := xs.foldl max n0.x
          let xMin := xs.foldl min n0.x
          let yMax := ys.foldl max n0.y
          let yMin := ys.foldl min n0.y
          if (xMin < node.coords.x && node.coords.x < xMax)
              || (yMin < node.coords.y && node.coords.y < yMax) then
            some (centers ++ [c])
          else some centers) (some [])

/-- Embeds `get_surrounded_coords`: cluster members all of whose
neighbors share their type. -/
def getSurroundedCoords (st : GraphState) (cs : List Coords) : List Coords :=
  cs.foldl (fun acc c =>
    match findNode st c with
    | none => acc
    | some node =>
      let surrounded := node.neighbors.all (fun nc =>
        match findNode st nc with
        | none => true
        | some nb => nb.ttype == node.ttype)
      if surrounded then acc ++ [c] else acc) []

/-! ### `MazeBuilder` (builders/abstract_builder.py) -/

/-- The state held by a constructed `MazeBuilder`: the shared node graph
plus the derived coordinate indices, in Python dictionary (insertion)
order. -/
structure Builder where
  st : GraphState
  travCoords : List Coords
  buildCoords : List Coords
  unbuildCoords : List Coords
  spawnCoords : List Coords
  exitCoords : List Coords
  removed : List Coords
  maxTowers : Int
deriving Repr, DecidableEq

/-- The corridor `while` loop inside `clear_single_paths`. The Python
loop re-evaluates its condition with unchanged variables when the next
corridor node is traversable but neither visited, a spawn/exit, nor
buildable, so the embedding recurses on the same arguments there and the
fuel guard (`none`) models that the loop never exits. -/
def clearWalk : Nat → GraphState → Coords → Coords → List Coords → List Coords →
    Option (GraphState × List Coords × List Coords)
  | 0, _, _, _, _, _ => none
  | fuel + 1, st, current, prev, build, removed =>
    match findNode st current with
    | none => some (st, build, removed)
    | some cn =>
      if cn.neighbors.length == 2 then
        match cn.neighbors.erase prev with
        | [] => some (st, build, removed)
        | nc :: _ =>
          match findNode st nc with
          | none => some (st, build, removed)
          | some nb =>
            if nb.visited then some (st, build, removed)
            else if nb.ttype.is_spawn || nb.ttype.is_exit then
              some (setVisited st nc true, build, removed)
            else if nb.ttype.allow_building then
              clearWalk fuel (setVisited st nc true) nc current
                (build.erase nc) (removed ++ [nc])
            else clearWalk fuel st current prev build removed
      else some (st, build, removed)

/-- Embeds `MazeBuilder.clear_single_paths`: walks forward from every
spawn/exit with exactly one neighbor, removing buildable corridor nodes
from the build dictionary. `none` models a walk that never terminates. -/
def clearSinglePaths (st₀ : GraphState) (build₀ : List Coords)
    (spawnCoords exitCoords travCoords : List Coords) :
    Option (GraphState × List Coords × List Coords) :=
  let stU := unvisitCoords st₀ travCoords
  (spawnCoords ++ exitCoords).foldl (fun acc c =>
    match acc with
    | none => none
    | some (st, build, removed) =>
      match findNode st c with
      | none => some (st, build, removed)
      | some node =>
        if node.neighbors.length != 1 then some (st, build, removed)
        else
          let st1 := setVisited st c true
          match node.neighbors with
          | [] => some (st1, build, removed)
          | nc :: _ =>
            match findNode st1 nc with
            | none => some (st1, build, removed)
            | some cur =>
              if cur.ttype.is_spawn || cur.ttype.is_exit || cur.visited then
                some (st1, build, removed)
              else
                let build1 := if cur.ttype.allow_building then build.erase nc else build
                let removed1 := if cur.ttype.allow_building then removed ++ [nc] else removed
                clearWalk (st1.length + 2) (setVisited st1 nc true) nc c build1 removed1)
    (some (stU, build₀, []))

/-- Embeds `MazeBuilder.clear_redundant_spawns`: drops the center and
surrounded members of each same-typed spawn cluster from the spawn list. -/
def clearRedundantSpawns (st₀ : GraphState) (spawnCoords : List Coords) :
    Option (GraphState × List Coords) :=
  if spawnCoords.length < 2 then some (st₀, spawnCoords)
  else
    let stU := unvisitCoords st₀ spawnCoords
    match (spawnCoords.foldl (fun acc c =>
      match acc with
      | none => none
      | some (st, unvis, redundant) =>
        if !unvis.contains c then some (st, unvis, redundant)
        else
          match getClusterOfNodes (st.length + 2) st c with
          | none => none
          | some (cluster, st2) =>
            if cluster.length < 2 then some (st2, unvis, redundant)
            else
              let unvis2 := unvis.filter (fun u => !cluster.contains u)
              match getCenterCoords st2 cluster with
              | none => none
              | some centers =>
                let red2 := unionCoords (unionCoords redundant centers)
                  (getSurroundedCoords st2 cluster)
                some (st2, unvis2, red2))
      (some (stU, spawnCoords, []))) with
    | none => none
    | some (st, _, redundant) =>
      some (st, spawnCoords.filter (fun c => !redundant.contains c))

/-- Embeds `MazeBuilder.calculate_max_towers`: the heuristic blocker
budget, capped by a caller-supplied limit when that limit passes the
source's truthiness-and-comparison test. `none` models the `TypeError`
the Python code raises when `get_maxmin_distance` returns `None`. -/
def calculateMaxTowers (st : GraphState) (spawnCoords travCoords buildCoords
    unbuildCoords removed : List Coords) (tower_limit : Option Int) :
    Option (Int × GraphState) :=
  let r := getMaxminDistance .exit spawnCoords travCoords st
  r.1.map fun maxmin =>
    let possible : Int := (buildCoords.length : Int) -
      max (maxmin - (removed.length : Int) - (unbuildCoords.length : Int) + 1) 0
    match tower_limit with
    | some t => if t ≤ possible then (t, r.2) else (possible, r.2)
    | none => (possible, r.2)

/-- `self.coordinated_traversables` keys, in dictionary order. -/
def travCoordsOf (nodes : GraphState) : List Coords :=
  (nodes.filter (fun n => n.ttype.is_traversable)).map (·.coords)

/-- `self.coordinated_build_nodes` keys (traversables that allow
building), in dictionary order. -/
def buildCoordsOf (nodes : GraphState) : List Coords :=
  (nodes.filter (fun n => n.ttype.is_traversable && n.ttype.allow_building)).map (·.coords)

/-- `self.coordinated_unbuildables` keys (traversables that do not
allow building), in dictionary order. -/
def unbuildCoordsOf (nodes : GraphState) : List Coords :=
  (nodes.filter (fun n => n.ttype.is_traversable && !n.ttype.allow_building)).map (·.coords)

/-- `self.spawn_nodes`, in dictionary order. -/
def spawnCoordsOf (nodes : GraphState) : List Coords :=
  (nodes.filter (fun n => n.ttype.is_traversable && n.ttype.is_spawn)).map (·.coords)

/-- `self.exit_nodes`, in dictionary order. -/
def exitCoordsOf (nodes : GraphState) : List Coords :=
  (nodes.filter (fun n => n.ttype.is_traversable && n.ttype.is_exit)).map (·.coords)

/-- Embeds `MazeBuilder.__init__` on an already connected
`coordinated_nodes` graph: derives the traversable/build/unbuildable/
spawn/exit indices, runs corridor elimination and redundant-spawn
elimination, and computes the tower budget. `none` models a
non-terminating corridor walk or a crash. -/
def mkBuilder (nodes : GraphState) (tower_limit : Option Int) : Option Builder :=
  (clearSinglePaths nodes (buildCoordsOf nodes) (spawnCoordsOf nodes)
      (exitCoordsOf nodes) (travCoordsOf nodes)).bind fun csp =>
    (clearRedundantSpawns csp.1 (spawnCoordsOf nodes)).bind fun crs =>
      (calculateMaxTowers crs.1 crs.2 (travCoordsOf nodes) csp.2.1
          (unbuildCoordsOf nodes) csp.2.2 tower_limit).map fun mts =>
        { st := mts.2, travCoords := travCoordsOf nodes, buildCoords := csp.2.1,
          unbuildCoords := unbuildCoordsOf nodes, spawnCoords := crs.2,
          exitCoords := exitCoordsOf nodes, removed := csp.2.2, maxTowers := mts.1 }

/-! ### `NaiveBuilder` (builders/naive_builder.py) -/

/-- `itertools.combinations` over a list, in the source order. -/
def combos : Nat → List Coords → List (List Coords)
  | 0, _ => [[]]
  | _ + 1, [] => []
  | k + 1, x :: xs => (combos k xs).map (fun l => x :: l) ++ combos (k + 1) xs

/-- Embeds `NaiveBuilder.calculate_maze_distances`: marks the
combination `Occupied`, then measures the per-spawn distances. -/
def calculateMazeDistances (spawnCoords travCoords : List Coords)
    (combo : List Coords) (st : GraphState) : Option (List Int) × GraphState :=
  let st1 := combo.foldl (fun s c => setTType s c .occupied) st
  getDistances .exit spawnCoords travCoords st1

/-- Embeds `NaiveBuilder.revert_to_buildables`: marks the combination's
nodes with the basic type (unconditionally `TTypeBasic`). -/
def revertToBuildables (combo : List Coords) (st : GraphState) : GraphState :=
  combo.foldl (fun s c => setTType s c .basic) st

/-- Embeds `NaiveBuilder.get_best_tower_combinations` for one tower
count: evaluates every combination, reverting after each, and keeps the
best `Distances` together with all tying combinations. -/
def getBestTowerCombinations (spawnCoords travCoords buildCoords : List Coords)
    (k : Nat) (st : GraphState) :
    (Option (List Int) × List (List Coords)) × GraphState :=
  (combos k buildCoords).foldl (fun acc combo =>
    let r := calculateMazeDistances spawnCoords travCoords combo
      (resetCoords acc.2 travCoords)
    (match r.1 with
     | none => acc.1
     | some dl =>
       match acc.1.1 with
       | none => (some dl, [combo])
       | some bl =>
         if distGt dl bl then (some dl, [combo])
         else if distEq dl bl then (acc.1.1, acc.1.2 ++ [combo])
         else acc.1,
     revertToBuildables combo r.2)) ((none, []), st)

/-- The tower counts `0, 1, ..., max_towers` visited by the `while
counter <= self.max_towers` loop (no iterations when the budget is
negative). -/
def towerCounts (mt : Int) : List Nat :=
  List.range (mt + 1).toNat

/-- Embeds `NaiveBuilder.generate_optimal_mazes`. Returns the
accumulated best tower coordinate lists together with the best
`Distances` value and the final graph state (both observable in the
Python object after the call). -/
def naiveGenerate (b : Builder) :
    List (List Coords) × Option (List Int) × GraphState :=
  let r := (towerCounts b.maxTowers).foldl (fun acc k =>
    let r := getBestTowerCombinations b.spawnCoords b.travCoords b.buildCoords k acc.2
    (match r.1.1 with
     | none => acc.1
     | some dl =>
       match acc.1.2 with
       | none => (r.1.2, some dl)
       | some bl =>
         if distGt dl bl then (r.1.2, some dl)
         else if distEq dl bl then (acc.1.1 ++ r.1.2, acc.1.2)
         else acc.1,
     r.2)) (([], none), b.st)
  (r.1.1, r.1.2, r.2)

/-! ### `CutoffBuilder` (builders/cutoff_builder.py)

The snapshot's `CutoffBuilder.__init__` forwards `(tiles, neighbor_count,
tower_limit)` to `MazeBuilder.__init__`, which accepts
`(coordinated_nodes, tower_limit)`, and reads attributes
(`self.traversables`, `self.spawn_coords`) that `MazeBuilder` does not
define; the embedding wires `generate_optimal_mazes`/`cut_off_route`
to the `MazeBuilder` state (`coordinated_traversables`, `spawn_nodes`)
those names evidently refer to. -/

/-- The search state of the cutoff builder. -/
structure CutState where
  st : GraphState
  bestDists : Option (List Int)
  bestCoords : List (List Coords)
  processed : List (Int × List Coords)
deriving Repr, DecidableEq

/-- `self.processed_coordinates[k]` (a `KeyError` becomes `none`). -/
def procGet (p : List (Int × List Coords)) (k : Int) : Option (List Coords) :=
  (p.find? (fun e => e.1 == k)).map (·.2)

/-- `self.processed_coordinates[k] = v` on an existing key. -/
def procSet (p : List (Int × List Coords)) (k : Int) (v : List Coords) :
    List (Int × List Coords) :=
  p.map (fun e => if e.1 == k then (e.1, v) else e)

/-- `self.processed_coordinates[k].add(c)` (a `KeyError` becomes `none`). -/
def procAdd (p : List (Int × List Coords)) (k : Int) (c : Coords) :
    Option (List (Int × List Coords)) :=
  match procGet p k with
  | none => none
  | some s => some (procSet p k (if s.contains c then s else s ++ [c]))

/-- `self.processed_coordinates[k].clear()` (a `KeyError` becomes `none`). -/
def procClear (p : List (Int × List Coords)) (k : Int) :
    Option (List (Int × List Coords)) :=
  match procGet p k with
  | none => none
  | some _ => some (procSet p k [])

/-- The `for count in range(self.max_towers, towers_left, -1)` pass that
subtracts the processed coordinate sets from the candidate nodes (using
the `Node == Coords` comparison of `Node.__eq__`). -/
def subtractProcessed (nodes : List Coords) (p : List (Int × List Coords))
    (maxTowers towersLeft : Int) : Option (List Coords) :=
  ((List.range (maxTowers - towersLeft).toNat).map
      (fun i => maxTowers - (i : Int))).foldl (fun acc k =>
    match acc with
    | none => none
    | some ns =>
      match procGet p k with
      | none => none
      | some s => some (ns.filter (fun c => !s.contains c))) (some nodes)

/-- The `for node in nodes` loop body of `cut_off_route`, parameterized
by the recursive call `recur` (which is `cut_off_route` itself, one fuel
unit down): skips unbuildable candidates, places a tower, recurses one
budget level down, restores the node to `TTypeBasic` and updates the
processed sets. -/
def cutLoopGen (recur : List Coords → Int → CutState → Option CutState) :
    List Coords → Int → CutState → List Coords → Option CutState
  | _, _, cs, [] => some cs
  | combination, towersLeft, cs2, c :: rest =>
    match findNode cs2.st c with
    | none => cutLoopGen recur combination towersLeft cs2 rest
    | some nd =>
      if !nd.ttype.allow_building then
        cutLoopGen recur combination towersLeft cs2 rest
      else
        match recur (combination ++ [c]) (towersLeft - 1)
            { cs2 with st := setTType cs2.st c .occupied } with
        | none => none
        | some cs3 =>
          let cs4 := { cs3 with st := setTType cs3.st c .basic }
          match procAdd cs4.processed towersLeft c with
          | none => none
          | some p2 =>
            if towersLeft > 1 then
              match procClear p2 (towersLeft - 1) with
              | none => none
              | some p3 =>
                cutLoopGen recur combination towersLeft { cs4 with processed := p3 } rest
            else
              cutLoopGen recur combination towersLeft { cs4 with processed := p2 } rest

/-- Embeds `CutoffBuilder.cut_off_route`: measures the shortest paths at
the current state, records the result, and recursively places a tower on
every buildable shortest-path node, restoring it to `TTypeBasic`
afterwards and maintaining the per-budget processed sets. `none` models
fuel exhaustion or a Python-level crash (`KeyError`/`IndexError`). -/
def cutOffRoute (spawnCoords travCoords : List Coords) (maxTowers : Int) :
    Nat → List Coords → Int → CutState → Option CutState
  | 0, _, _, _ => none
  | fuel + 1, combination, towersLeft, cs₀ =>
    match getNodesOnShortestPathsMultiple .exit spawnCoords travCoords cs₀.st with
    | none => none
    | some ((distsOpt, nodes), st2) =>
      let cs := { cs₀ with st := st2 }
      match distsOpt with
      | none =>
        if towersLeft > 0 then
          match combination.getLast? with
          | none => none
          | some lastc =>
            match procAdd cs.processed towersLeft lastc with
            | none => none
            | some p2 => some { cs with processed := p2 }
        else some cs
      | some dl =>
        let cs1 :=
          match cs.bestDists with
          | none => { cs with bestDists := some dl, bestCoords := [combination] }
          | some bl =>
            if distGt dl bl then
              { cs with bestDists := some dl, bestCoords := [combination] }
            else if distEq dl bl then
              { cs with bestCoords := cs.bestCoords ++ [combination] }
            else cs
        if towersLeft == 0 then some cs1
        else
          match subtractProcessed nodes cs1.processed maxTowers towersLeft with
          | none => none
          | some nodes2 =>
            cutLoopGen (fun comb2 tl2 csr =>
                cutOffRoute spawnCoords travCoords maxTowers fuel comb2 tl2 csr)
              combination towersLeft cs1 nodes2

/-- Embeds `CutoffBuilder.generate_optimal_mazes`: initializes the
per-budget processed sets for `max_towers, ..., 1` and starts the
recursion with the empty combination and the full budget. -/
def cutoffGenerate (b : Builder) (fuel : Nat) : Option CutState :=
  let proc := ((List.range b.maxTowers.toNat).map
    (fun i => (b.maxTowers - (i : Int), ([] : List Coords))))
  cutOffRoute b.spawnCoords b.travCoords b.maxTowers fuel [] b.maxTowers
    { st := b.st, bestDists := none, bestCoords := [], processed := proc }

/-! ### Map validation (utils/map_validation.py) -/

instance : DecidableEq (Except String Unit) := fun a b =>
  match a, b with
  | .ok (), .ok () => isTrue rfl
  | .ok (), .error _ => isFalse (fun h => by cases h)
  | .error _, .ok () => isFalse (fun h => by cases h)
  | .error s, .error t =>
    if h : s = t then isTrue (by rw [h]) else isFalse (fun hc => by cases hc; exact h rfl)

/-- `divide_types`: the spawn tiles of a grid. -/
def spawnTiles (tiles : List Tile) : List Tile :=
  tiles.filter (fun t => t.2 == TType.spawn)

/-- `divide_types`: the exit tiles of a grid. -/
def exitTiles (tiles : List Tile) : List Tile :=
  tiles.filter (fun t => t.2 == TType.exit)

/-- `divide_types`: the traversable tiles, concatenated in the source's
group order (basics, unbuildables, spawns, exits). -/
def traversableTiles (tiles : List Tile) : List Tile :=
  tiles.filter (fun t => t.2 == TType.basic)
    ++ tiles.filter (fun t => t.2 == TType.unbuildable)
    ++ spawnTiles tiles ++ exitTiles tiles

/-- The spawn-cluster reduction of `validate_route`: keeps only the
first member of each spawn cluster in `current_spawns`. -/
def reduceSpawnClusters (allCoords : List Coords) :
    GraphState → List Coords → List Coords → Option (GraphState × List Coords)
  | st, [], current => some (st, current)
  | st, c :: rest, current =>
    if !current.contains c then reduceSpawnClusters allCoords st rest current
    else
      match getClusterOfNodes (st.length + 2) st c with
      | none => none
      | some (cluster, st2) =>
        if cluster.length > 1 then
          reduceSpawnClusters allCoords st2 rest
            (current.filter (fun u => !cluster.tail.contains u))
        else reduceSpawnClusters allCoords st2 rest current

/-- The per-spawn reachability probes of `validate_route`: a depth-first
search to any exit from each remaining spawn, collecting the exits that
were found. -/
def probeSpawns (allCoords : List Coords) :
    GraphState → List Coords → List Coords →
    Option (Except String (GraphState × List Coords))
  | st, [], found => some (.ok (st, found))
  | st, c :: rest, found =>
    let st1 := resetCoords st allCoords
    match dfsAnyTType (st1.length + 2) st1 c .exit with
    | none => none
    | some (exitFound, st2) =>
      match exitFound with
      | none => some (.error "a spawn is blocked")
      | some ec =>
        probeSpawns allCoords st2 rest
          (if found.contains ec then found else found ++ [ec])

/-- The exit-cluster reduction of `validate_route`: exit clusters that
contain a found exit are wholly marked found; other clusters keep only
their first member. -/
def reduceExitClusters (allCoords : List Coords) :
    GraphState → List Coords → List Coords → List Coords →
    Option (GraphState × List Coords × List Coords)
  | st, [], current, found => some (st, current, found)
  | st, c :: rest, current, found =>
    if !current.contains c then reduceExitClusters allCoords st rest current found
    else
      match getClusterOfNodes (st.length + 2) st c with
      | none => none
      | some (cluster, st2) =>
        if (found.filter (fun f => !cluster.contains f)).length < found.length then
          reduceExitClusters allCoords st2 rest
            (current.filter (fun u => !cluster.contains u))
            (unionCoords found cluster)
        else if cluster.length > 1 then
          reduceExitClusters allCoords st2 rest
            (current.filter (fun u => !cluster.tail.contains u)) found
        else reduceExitClusters allCoords st2 rest current found

/-- The per-exit reachability probes of `validate_route`: a depth-first
search to any spawn from each remaining exit. -/
def probeExits (allCoords : List Coords) :
    GraphState → List Coords → Option (Except String GraphState)
  | st, [] => some (.ok st)
  | st, c :: rest =>
    let st1 := resetCoords st allCoords
    match dfsAnyTType (st1.length + 2) st1 c .spawn with
    | none => none
    | some (spawnFound, st2) =>
      match spawnFound with
      | none => some (.error "an exit is blocked")
      | some _ => probeExits allCoords st2 rest

/-- The traversable-only node graph the validator builds. -/
def routeNodes (tiles : List Tile) (neighbor_count : Nat) : GraphState :=
  buildGraph (traversableTiles tiles) neighbor_count

/-- All coordinates of the validator's graph. -/
def routeAll (tiles : List Tile) (neighbor_count : Nat) : List Coords :=
  (routeNodes tiles neighbor_count).map (·.coords)

/-- The validator's spawn node coordinates. -/
def routeSpawnCs (tiles : List Tile) (neighbor_count : Nat) : List Coords :=
  ((routeNodes tiles neighbor_count).filter (fun n => n.ttype == TType.spawn)).map (·.coords)

/-- The validator's exit node coordinates. -/
def routeExitCs (tiles : List Tile) (neighbor_count : Nat) : List Coords :=
  ((routeNodes tiles neighbor_count).filter (fun n => n.ttype == TType.exit)).map (·.coords)

/-- The spawn-cluster reduction step of `validate_route` (run only when
the grid has more than one spawn tile). -/
def routeSpawnPhase (tiles : List Tile) (neighbor_count : Nat) :
    Option (GraphState × List Coords) :=
  if (spawnTiles tiles).length > 1 then
    reduceSpawnClusters (routeAll tiles neighbor_count)
      (resetCoords (routeNodes tiles neighbor_count) (routeAll tiles neighbor_count))
      (routeSpawnCs tiles neighbor_count) (routeSpawnCs tiles neighbor_count)
  else some (routeNodes tiles neighbor_count, routeSpawnCs tiles neighbor_count)

/-- The final step of `validate_route` after the per-exit probes. -/
def routeAfterExitProbe : Except String GraphState → Option (Except String Unit)
  | .error e => some (.error e)
  | .ok _ => some (.ok ())

/-- The part of `validate_route` after the per-spawn probes: the exit
cluster reduction followed by the per-exit probes. -/
def routeAfterSpawnProbe (allCoords exitCs : List Coords) :
    Except String (GraphState × List Coords) → Option (Except String Unit)
  | .error e => some (.error e)
  | .ok p =>
    let remaining := exitCs.filter (fun c => !p.2.contains c)
    ((if remaining != [] then
        reduceExitClusters allCoords (resetCoords p.1 allCoords) remaining remaining p.2
      else some (p.1, remaining, p.2))).bind fun p3 =>
      (probeExits allCoords p3.1 (remaining.filter p3.2.1.contains)).bind
        routeAfterExitProbe

/-- Embeds `MapValidator2D.validate_route`: builds the traversable-only
node graph, reduces spawn clusters, probes every remaining spawn for an
exit, reduces exit clusters against the found exits, and probes every
remaining exit for a spawn. `none` models fuel exhaustion. -/
def validateRoute (tiles : List Tile) (neighbor_count : Nat) :
    Option (Except String Unit) :=
  (routeSpawnPhase tiles neighbor_count).bind fun p1 =>
    (probeSpawns (routeAll tiles neighbor_count) p1.1
        ((routeSpawnCs tiles neighbor_count).filter p1.2.contains) []).bind fun r2 =>
      routeAfterSpawnProbe (routeAll tiles neighbor_count)
        (routeExitCs tiles neighbor_count) r2

/-- Embeds `MapValidator.validate_map`: `divide_types`, then the
spawn-count check, the exit-count check and the route check, in order,
each raising before the next runs. -/
def validateMap (tiles : List Tile) (neighbor_count : Nat) :
    Option (Except String Unit) :=
  if (spawnTiles tiles).length == 0 then some (.error "not enough spawns")
  else if (exitTiles tiles).length == 0 then some (.error "not enough exits")
  else validateRoute tiles neighbor_count

/-! ### Q-learning (builders/q_learn_builder.py) -/

/-- Embeds `QState`: a state's action-reward table and its (frozen)
action key set. -/
structure QState where
  q_actions : List (Coords × ℚ)
  actions : List Coords
deriving Repr, DecidableEq

/-- The Q-table `{state: QState}`. -/
abbrev QTable := List (Coords × QState)

/-- Dictionary lookup in the Q-table. -/
def qLookup (table : QTable) (c : Coords) : Option QState :=
  (table.find? (fun e => e.1 == c)).map (·.2)

/-- Lookup in a `q_actions` dictionary. -/
def qaLookup (qa : List (Coords × ℚ)) (c : Coords) : Option ℚ :=
  (qa.find? (fun e => e.1 == c)).map (·.2)

/-- `q_actions[action] = v` on an existing key. -/
def qaSet (qa : List (Coords × ℚ)) (c : Coords) (v : ℚ) : List (Coords × ℚ) :=
  qa.map (fun e => if e.1 == c then (e.1, v) else e)

/-- Embeds `QLearnBuilder.available_actions`: the state's actions minus
the episode's blocked set. -/
def availableActions (qs : QState) (blocked : List Coords) : List Coords :=
  qs.actions.filter (fun a => !blocked.contains a)

/-- One step of the reward scan in `get_best_available_q_action`: skip
an unavailable action, otherwise keep the strictly larger reward
(`none` in the second component stands for the `-math.inf` start). -/
def qBestStep (p : Coords → Bool) (acc : Option Coords × Option ℚ)
    (kv : Coords × ℚ) : Option Coords × Option ℚ :=
  if !p kv.1 then acc
  else
    match acc.2 with
    | none => (some kv.1, some kv.2)
    | some lv => if kv.2 > lv then (some kv.1, some kv.2) else acc

/-- Embeds `QLearnBuilder.get_best_available_q_action`: scans
`q_actions` in order, keeping the strictly largest reward among the
available actions; `none` stands for the `-math.inf` start value. -/
def getBestAvailableQAction (qs : QState) (blocked : List Coords) :
    Option Coords × Option ℚ :=
  qs.q_actions.foldl (qBestStep (availableActions qs blocked).contains) (none, none)

/-- Embeds `QLearnBuilder.update` (with `alpha = 0.5` and
`reward_fail = -1` from `__init__`): replaces the `-inf` best future
reward by `-1` and moves the stored Q-value toward
`reward + best_future`. `none` models a `KeyError`. -/
def qUpdate (table : QTable) (blocked : List Coords)
    (old_state action : Coords) (reward : ℚ) : Option QTable :=
  (qLookup table old_state).bind fun qsOld =>
    (qaLookup qsOld.q_actions action).bind fun old_q =>
      (qLookup table action).bind fun qsAct =>
        let best_future : ℚ := ((getBestAvailableQAction qsAct blocked).2).getD (-1)
        let delta := (1 / 2 : ℚ) * (reward + best_future - old_q)
        some (table.map (fun e =>
          if e.1 == old_state then
            (e.1, { qsOld with q_actions := qaSet qsOld.q_actions action (old_q + delta) })
          else e))

/-- A concrete two-state Q-table: the spawn state at `(0,0)` with two
actions, and the state at `(1,0)` whose only action leads back. -/
def qTableW : QTable :=
  [(⟨0, 0⟩, ⟨[(⟨1, 0⟩, 2), (⟨0, 1⟩, 0)], [⟨1, 0⟩, ⟨0, 1⟩]⟩),
   (⟨1, 0⟩, ⟨[(⟨0, 0⟩, 2)], [⟨0, 0⟩]⟩)]

/-- `qTableW` after the update of `Q[(0,0)][(1,0)]` with reward 1 and
every action of `(1,0)` blocked: the new value is
`2 + 0.5 * (1 + (-1) - 2)`, that is, `1`. -/
def qTableW' : QTable :=
  [(⟨0, 0⟩, ⟨[(⟨1, 0⟩, 2 + (1 / 2 : ℚ) * (1 + -1 - 2)), (⟨0, 1⟩, 0)], [⟨1, 0⟩, ⟨0, 1⟩]⟩),
   (⟨1, 0⟩, ⟨[(⟨0, 0⟩, 2)], [⟨0, 0⟩]⟩)]

/-- The moved-to state of the witness update. -/
def qsActW : QState := ⟨[(⟨0, 0⟩, 2)], [⟨0, 0⟩]⟩

/-! ### Node equality and hashing (`Node.__eq__`, `Node.__hash__`) -/

/-- Embeds the `isinstance(other, Node)` branch of `Node.__eq__`:
comparison by coordinates only. -/
def nodeBEq (n m : Node) : Bool :=
  n.coords == m.coords

/-- Embeds the fallback branch of `Node.__eq__` against a bare `Coords`
value: `self._coords == other`. -/
def nodeEqCoords (n : Node) (c : Coords) : Bool :=
  n.coords == c

/-- Embeds `Node.__hash__` relative to the (external) tuple hash `h`:
`hash(self._coords)`. -/
def nodeHash (h : Coords → Int) (n : Node) : Int :=
  h n.coords

/-- Python set difference `set_of_nodes - set_of_coords` as performed in
`CutoffBuilder.cut_off_route`: a node is dropped exactly when some
coordinate in the subtrahend compares equal to it under `Node.__eq__`. -/
def pyNodeSetDiff (nodes : List Node) (cs : List Coords) : List Node :=
  nodes.filter (fun n => !cs.any (fun c => nodeEqCoords n c))

/-! ### The declarative distance chain used to state the behavior of
`get_distances` -/

/-- One shortest-hop distance per source, each computed by
`get_shortest_distance_any` after `unvisit_nodes` on the current nodes,
with the graph state threaded between sources and every distance passing
the source's truthiness guard. -/
inductive DistChain (e : TType) (cur : List Coords) :
    List Coords → GraphState → List Int → GraphState → Prop
  | nil (st : GraphState) : DistChain e cur [] st [] st
  | cons (s : Coords) (rest : List Coords) (st : GraphState) (d : Int)
      (st2 : GraphState) (l : List Int) (st3 : GraphState) :
      getShortestDistanceAny (unvisitCoords st cur) s e = (some d, st2) →
      d ≠ 0 →
      DistChain e cur rest st2 l st3 →
      DistChain e cur (s :: rest) st (d :: l) st3

/-! ### Concrete example grids -/

/-- The 3-cell grid `[Spawn, Basic, Exit]` of the spec's example. -/
def threeCellTiles : List Tile :=
  [(⟨0, 0⟩, .spawn), (⟨1, 0⟩, .basic), (⟨2, 0⟩, .exit)]

/-- Its connected node graph (4-connected). -/
def threeCellGraph : GraphState := buildGraph threeCellTiles 4

/-- A validated 7-cell grid with one spawn and two exits: a short
corridor to the near exit at `(2,0)` and a longer corridor to the far
exit at `(0,3)`, plus one spare buildable cell at `(1,1)`. -/
def sevenTiles : List Tile :=
  [(⟨0, 0⟩, .spawn), (⟨1, 0⟩, .basic), (⟨2, 0⟩, .exit),
   (⟨0, 1⟩, .basic), (⟨1, 1⟩, .basic), (⟨0, 2⟩, .basic), (⟨0, 3⟩, .exit)]

/-- Its connected node graph (4-connected). -/
def sevenGraph : GraphState := buildGraph sevenTiles 4

/-- A 6-cell grid whose build set contains a `path`-typed node at
`(1,0)` (buildable but not `basic`), with enough unbuildable tiles for a
positive tower budget. -/
def pathTiles : List Tile :=
  [(⟨0, 0⟩, .spawn), (⟨1, 0⟩, .path), (⟨2, 0⟩, .unbuildable),
   (⟨0, 1⟩, .basic), (⟨1, 1⟩, .exit), (⟨2, 1⟩, .unbuildable)]

/-- Its connected node graph (4-connected). -/
def pathGraph : GraphState := buildGraph pathTiles 4

/-- A 5-cell corridor `[Spawn, Basic, Unbuildable, Basic, Exit]`: the
corridor walk from the spawn reaches the unbuildable cell at `(2,0)`. -/
def c4Tiles : List Tile :=
  [(⟨0, 0⟩, .spawn), (⟨1, 0⟩, .basic), (⟨2, 0⟩, .unbuildable),
   (⟨3, 0⟩, .basic), (⟨4, 0⟩, .exit)]

/-- Its connected node graph (4-connected). -/
def c4Graph : GraphState := buildGraph c4Tiles 4

/-- The traversable coordinates of `c4Graph` (all five cells). -/
def c4Trav : List Coords :=
  (c4Graph.filter (fun n => n.ttype.is_traversable)).map (·.coords)

/-- The graph state at the moment `clear_single_paths`'s corridor walk
from the spawn of `c4Tiles` first evaluates its `while` condition: all
nodes unvisited except the spawn and its sole neighbor `(1,0)`. -/
def c4StuckState : GraphState :=
  setVisited (setVisited (unvisitCoords c4Graph c4Trav) ⟨0, 0⟩ true) ⟨1, 0⟩ true

/-- The build dictionary at that moment: `(1,0)` already removed. -/
def c4StuckBuild : List Coords := [⟨3, 0⟩]

/-- The builder constructed from the 3-cell grid, written out: no build
nodes, one removed corridor coordinate, spawn and exit among the
unbuildable traversables, budget `0 - max(2 - 1 - 2 + 1, 0) = 0`. -/
def threeCellBuilder : Builder :=
  { st := [⟨⟨0, 0⟩, .spawn, true, 0, [⟨1, 0⟩]⟩,
           ⟨⟨1, 0⟩, .basic, true, 1, [⟨0, 0⟩, ⟨2, 0⟩]⟩,
           ⟨⟨2, 0⟩, .exit, false, 0, [⟨1, 0⟩]⟩],
    travCoords := [⟨0, 0⟩, ⟨1, 0⟩, ⟨2, 0⟩],
    buildCoords := [],
    unbuildCoords := [⟨0, 0⟩, ⟨2, 0⟩],
    spawnCoords := [⟨0, 0⟩],
    exitCoords := [⟨2, 0⟩],
    removed := [⟨1, 0⟩],
    maxTowers := 0 }

/-! ### Observations of a graph state used by the frame theorems -/

/-- The persistent data of a graph state: each node's coordinates and
neighbor list, in node order. -/
def shapeOf (st : GraphState) : List (Coords × List Coords) :=
  st.map (fun n => (n.coords, n.neighbors))

/-- The tile types of a graph state, keyed by coordinates, in node
order. -/
def ttypesOf (st : GraphState) : List (Coords × TType) :=
  st.map (fun n => (n.coords, n.ttype))

/-- Both persistent observations preserved: same coordinates, same
neighbor topology, same tile types. -/
def Frames (st st' : GraphState) : Prop :=
  shapeOf st' = shapeOf st ∧ ttypesOf st' = ttypesOf st

/-- Every node whose type allows building has the basic type (no `path`
nodes): the hypothesis under which the search restores types exactly. -/
def OccupiableBasic (st : GraphState) : Prop :=
  ∀ p ∈ ttypesOf st, p.2.allow_building = true → p.2 = TType.basic

/-- The graph has one node per coordinate. -/
def KeysNodup (st : GraphState) : Prop :=
  (st.map (·.coords)).Nodup

instance (st : GraphState) : Decidable (OccupiableBasic st) :=
  inferInstanceAs
    (Decidable (∀ p ∈ ttypesOf st, p.2.allow_building = true → p.2 = TType.basic))

instance (st : GraphState) : Decidable (KeysNodup st) := by
  unfold KeysNodup
  infer_instance

/-- The cutoff search's final state on the 3-cell map (the tower budget
is zero, so the recursion measures the base distances once and stops). -/
def c3OutW : CutState :=
  (cutoffGenerate threeCellBuilder 5).getD ⟨[], none, [], []⟩

end TDMaze

namespace TDMaze

/-! ## Theorems -/

/-- C1: the spec requires the pruned cutoff search and the exhaustive
search to return the same optimal `Distances` value on every validated
grid, but on the validated 7-cell grid `sevenTiles` the exhaustive
search's best objective is `Distances([2])` while the cutoff search's is
`Distances([3])`: the cutoff recursion places a tower on the
corridor-eliminated buildable cell `(1,0)` (its candidate filter checks
only `allow_building`, not membership in the reduced build set), which
the exhaustive search can never use. -/
theorem claim_c1_pruned_vs_exhaustive_diverge :
    validateMap sevenTiles 4 = some (Except.ok ()) ∧
    (mkBuilder sevenGraph none).map (fun b => (naiveGenerate b).2.1) = some (some [2]) ∧
    (mkBuilder sevenGraph none).map (fun b => (cutoffGenerate b 50).map (·.bestDists))
      = some (some (some [3])) ∧
    distEq [2] [3] = false ∧ distGt [3] [2] = true := by
  decide

/-- C2: on the 3-cell grid `[Spawn, Basic, Exit]` with 4-connected
adjacency and no caller tower limit, the unmodified shortest
spawn-to-exit distance is 2, corridor elimination leaves no eligible
build nodes, and the exhaustive search returns exactly `[[]]` with
objective `Distances([2])`. -/
theorem claim_c2_three_cell_example :
    (getShortestDistanceAny threeCellGraph ⟨0, 0⟩ .exit).1 = some 2 ∧
    (mkBuilder threeCellGraph none).map (·.buildCoords) = some [] ∧
    (mkBuilder threeCellGraph none).map
      (fun b => ((naiveGenerate b).1, (naiveGenerate b).2.1)) = some ([[]], some [2]) := by
  decide

/-- C3 (counterexample): on `pathTiles` the build node at `(1,0)` has
the buildable `path` type; the exhaustive search marks it `Occupied`
while evaluating combinations and `revert_to_buildables` restores it to
`TTypeBasic`, so after the search its type is `basic`, not its original
`path`. -/
theorem claim_c3_path_not_restored :
    (findNode pathGraph ⟨1, 0⟩).map (·.ttype) = some TType.path ∧
    (mkBuilder pathGraph none).map (·.buildCoords)
      = some [⟨1, 0⟩, ⟨0, 1⟩] ∧
    (mkBuilder pathGraph none).map
      (fun b => (findNode (naiveGenerate b).2.2 ⟨1, 0⟩).map (·.ttype))
      = some (some TType.basic) ∧
    TType.basic ≠ TType.path := by
  decide

/-- C4: the corridor walk of `clear_single_paths` does not terminate
when it meets a traversable corridor cell that does not allow building:
on `c4Tiles` the walk from the spawn reaches the unbuildable cell
`(2,0)` and from then on re-evaluates the loop condition with unchanged
state forever (no fuel makes the embedded loop return), so the builder
construction never completes. -/
theorem claim_c4_corridor_walk_diverges :
    (∀ fuel, clearWalk fuel c4StuckState ⟨1, 0⟩ ⟨0, 0⟩ c4StuckBuild [⟨1, 0⟩] = none) ∧
    mkBuilder c4Graph none = none := by
  constructor
  · intro fuel
    induction fuel with
    | zero => rfl
    | succ n ih => exact ih
  · decide

/-- Python list comparison is asymmetric. -/
theorem pyListGt_asymm : ∀ x y : List Int, pyListGt x y = true → pyListGt y x = false
  | [], _, h => by simp [pyListGt] at h
  | _ :: _, [], _ => by simp [pyListGt]
  | x :: xs, y :: ys, h => by
    simp only [pyListGt] at h ⊢
    rcases lt_trichotomy x y with hlt | heq | hgt
    · simp [hlt, not_lt.mpr (le_of_lt hlt)] at h
    · subst heq
      simp only [lt_irrefl, if_false, gt_iff_lt] at h ⊢
      exact pyListGt_asymm xs ys h
    · simp [hgt, not_lt.mpr (le_of_lt hgt)]

/-- Two lists neither of which is Python-greater are equal. -/
theorem pyListGt_eq_of_not_gt : ∀ x y : List Int,
    pyListGt x y = false → pyListGt y x = false → x = y
  | [], [], _, _ => rfl
  | [], _ :: _, _, h2 => by simp [pyListGt] at h2
  | _ :: _, [], h1, _ => by simp [pyListGt] at h1
  | x :: xs, y :: ys, h1, h2 => by
    simp only [pyListGt] at h1 h2
    rcases lt_trichotomy x y with hlt | heq | hgt
    · simp [hlt, not_lt.mpr (le_of_lt hlt)] at h2
    · subst heq
      simp only [lt_irrefl, if_false, gt_iff_lt] at h1 h2
      rw [pyListGt_eq_of_not_gt xs ys h1 h2]
    · simp [hgt, not_lt.mpr (le_of_lt hgt)] at h1

/-- Python list comparison is irreflexive. -/
theorem pyListGt_irrefl (x : List Int) : pyListGt x x = false := by
  cases h : pyListGt x x with
  | false => rfl
  | true => exact h.symm.trans (pyListGt_asymm x x h)

/-- Sorting returns the same result on permuted input. -/
theorem pySort_eq_of_perm {a a' : List Int} (h : a.Perm a') : pySort a = pySort a' :=
  List.eq_of_perm_of_sorted
    (((List.perm_insertionSort _ a).trans h).trans (List.perm_insertionSort _ a').symm)
    (List.sorted_insertionSort _ a) (List.sorted_insertionSort _ a')

/-- C6: `Distances` comparison sorts both operand value lists ascending
and compares them lexicographically; for two equal-length integer lists
exactly one of greater (`__gt__`), less (the reflected `__gt__`), and
equal (`__eq__`) holds, and each outcome is unchanged when either
operand's values were appended in a different order. -/
theorem claim_c6_distances_total_order (a b a' b' : List Int)
    (h : a.length = b.length) (ha : a.Perm a') (hb : b.Perm b') :
    ((distGt a b = true ∧ distGt b a = false ∧ distEq a b = false) ∨
     (distGt b a = true ∧ distGt a b = false ∧ distEq a b = false) ∨
     (distEq a b = true ∧ distGt a b = false ∧ distGt b a = false)) ∧
    (distGt a b = distGt a' b' ∧ distGt b a = distGt b' a' ∧ distEq a b = distEq a' b') := by
  constructor
  · unfold distGt distEq
    rcases hgt : pyListGt (pySort a) (pySort b) with _ | _
    · rcases hlt : pyListGt (pySort b) (pySort a) with _ | _
      · refine Or.inr (Or.inr ⟨?_, rfl, rfl⟩)
        rw [pyListGt_eq_of_not_gt _ _ hgt hlt]
        simp
      · refine Or.inr (Or.inl ⟨rfl, rfl, ?_⟩)
        rw [beq_eq_false_iff_ne]
        intro hcontra
        rw [hcontra, pyListGt_irrefl] at hlt
        cases hlt
    · refine Or.inl ⟨rfl, pyListGt_asymm _ _ hgt, ?_⟩
      rw [beq_eq_false_iff_ne]
      intro hcontra
      rw [hcontra, pyListGt_irrefl] at hgt
      cases hgt
  · unfold distGt distEq
    rw [pySort_eq_of_perm ha, pySort_eq_of_perm hb]
    exact ⟨rfl, rfl, rfl⟩

/-- Witness for C6 at the concrete pair `[5,3]` versus `[4,4]`,
permuted to `[3,5]` and `[4,4]`. -/
theorem claim_c6_distances_total_order_witness :
    ([5, 3] : List Int).length = ([4, 4] : List Int).length ∧
    (([5, 3] : List Int).Perm [3, 5] ∧ ([4, 4] : List Int).Perm [4, 4]) ∧
    (((distGt [5, 3] [4, 4] = true ∧ distGt [4, 4] [5, 3] = false ∧
        distEq [5, 3] [4, 4] = false) ∨
      (distGt [4, 4] [5, 3] = true ∧ distGt [5, 3] [4, 4] = false ∧
        distEq [5, 3] [4, 4] = false) ∨
      (distEq [5, 3] [4, 4] = true ∧ distGt [5, 3] [4, 4] = false ∧
        distGt [4, 4] [5, 3] = false)) ∧
     (distGt [5, 3] [4, 4] = distGt [3, 5] [4, 4] ∧
      distGt [4, 4] [5, 3] = distGt [4, 4] [3, 5] ∧
      distEq [5, 3] [4, 4] = distEq [3, 5] [4, 4])) :=
  ⟨rfl, ⟨by decide, by decide⟩,
    claim_c6_distances_total_order [5, 3] [4, 4] [3, 5] [4, 4] rfl
      (by decide) (by decide)⟩

/-- C10: `Node.__eq__` and `Node.__hash__` depend on coordinates only:
nodes with equal coords compare and hash equal whatever their type,
visited, distance or neighbor fields hold; a node also compares equal to
a bare `Coords` value with the same coordinates; and consequently the
set difference of a node set and a coordinate set removes exactly the
nodes whose coordinates are in the subtrahend. -/
theorem claim_c10_node_identity_by_coords (n m x : Node) (hfn : Coords → Int)
    (c : Coords) (nodes : List Node) (cs : List Coords)
    (hcoords : n.coords = m.coords) :
    (nodeBEq n m = true ∧ nodeHash hfn n = nodeHash hfn m) ∧
    (nodeEqCoords n c = true ↔ n.coords = c) ∧
    (x ∈ pyNodeSetDiff nodes cs ↔ x ∈ nodes ∧ ¬ x.coords ∈ cs) := by
  refine ⟨⟨?_, ?_⟩, ?_, ?_⟩
  · simp [nodeBEq, hcoords]
  · simp [nodeHash, hcoords]
  · simp [nodeEqCoords]
  · constructor
    · intro hx
      rcases List.mem_filter.mp hx with ⟨h1, h2⟩
      rw [Bool.not_eq_true'] at h2
      refine ⟨h1, fun hmem => ?_⟩
      have hall := List.any_eq_false.mp h2 x.coords hmem
      simp [nodeEqCoords] at hall
    · rintro ⟨h1, h2⟩
      refine List.mem_filter.mpr ⟨h1, ?_⟩
      rw [Bool.not_eq_true']
      refine List.any_eq_false.mpr (fun cc hcc => ?_)
      simp only [nodeEqCoords, beq_iff_eq]
      intro he
      exact h2 (he ▸ hcc)

/-- Witness for C10: two nodes at `(1,2)` that differ in every other
field, and a set difference keeping exactly the node off `(1,2)`. -/
theorem claim_c10_node_identity_by_coords_witness :
    (Node.mk ⟨1, 2⟩ .path true 7 [⟨0, 0⟩]).coords
        = (Node.mk ⟨1, 2⟩ .basic false 0 []).coords ∧
    ((nodeBEq (Node.mk ⟨1, 2⟩ .path true 7 [⟨0, 0⟩]) (Node.mk ⟨1, 2⟩ .basic false 0 []) = true ∧
      nodeHash (fun cc => cc.x) (Node.mk ⟨1, 2⟩ .path true 7 [⟨0, 0⟩])
        = nodeHash (fun cc => cc.x) (Node.mk ⟨1, 2⟩ .basic false 0 [])) ∧
     (nodeEqCoords (Node.mk ⟨1, 2⟩ .path true 7 [⟨0, 0⟩]) ⟨1, 2⟩ = true ↔
      (Node.mk ⟨1, 2⟩ .path true 7 [⟨0, 0⟩]).coords = ⟨1, 2⟩) ∧
     (Node.mk ⟨3, 4⟩ .basic false 0 [] ∈
        pyNodeSetDiff [Node.mk ⟨1, 2⟩ .basic false 0 [], Node.mk ⟨3, 4⟩ .basic false 0 []]
          [⟨1, 2⟩] ↔
      Node.mk ⟨3, 4⟩ .basic false 0 [] ∈
        [Node.mk ⟨1, 2⟩ .basic false 0 [], Node.mk ⟨3, 4⟩ .basic false 0 []] ∧
      ¬ (Node.mk ⟨3, 4⟩ .basic false 0 []).coords ∈ [(⟨1, 2⟩ : Coords)])) :=
  ⟨rfl, claim_c10_node_identity_by_coords _ _ _ _ _ _ _ rfl⟩

/-- A skipped scan step leaves the accumulator unchanged. -/
theorem qBestStep_skip (p : Coords → Bool) (acc : Option Coords × Option ℚ)
    (kv : Coords × ℚ) (hp : p kv.1 = false) : qBestStep p acc kv = acc := by
  simp [qBestStep, hp]

/-- A passing scan step on the `-inf` accumulator takes the item. -/
theorem qBestStep_first (p : Coords → Bool) (a1 : Option Coords)
    (kv : Coords × ℚ) (hp : p kv.1 = true) :
    qBestStep p (a1, none) kv = (some kv.1, some kv.2) := by
  simp [qBestStep, hp]

/-- A passing scan step takes the item exactly when its reward is
strictly larger. -/
theorem qBestStep_cmp (p : Coords → Bool) (a1 : Option Coords) (lv : ℚ)
    (kv : Coords × ℚ) (hp : p kv.1 = true) :
    qBestStep p (a1, some lv) kv =
      if kv.2 > lv then (some kv.1, some kv.2) else (a1, some lv) := by
  simp [qBestStep, hp]

/-- The reward-scan fold of `get_best_available_q_action` ends with no
reward exactly when it started with none and no scanned item passes the
availability test. -/
theorem qBestFoldNoneIff (p : Coords → Bool) :
    ∀ (items : List (Coords × ℚ)) (acc : Option Coords × Option ℚ),
    ((items.foldl (qBestStep p) acc).2 = none)
    ↔ (acc.2 = none ∧ (items.filter (fun kv => p kv.1)).map (·.2) = [])
  | [], acc => by simp
  | kv :: rest, acc => by
    obtain ⟨a1, a2⟩ := acc
    rcases hp : p kv.1 with _ | _
    · rw [List.foldl_cons, qBestStep_skip p _ _ hp, qBestFoldNoneIff p rest _]
      simp [List.filter_cons, hp]
    · rcases a2 with _ | lv
      · rw [List.foldl_cons, qBestStep_first p _ _ hp, qBestFoldNoneIff p rest _]
        simp [List.filter_cons, hp]
      · rw [List.foldl_cons, qBestStep_cmp p _ _ _ hp]
        by_cases hgt : kv.2 > lv
        · rw [if_pos hgt, qBestFoldNoneIff p rest _]
          simp [List.filter_cons, hp]
        · rw [if_neg hgt, qBestFoldNoneIff p rest _]
          simp [List.filter_cons, hp]

/-- The reward-scan fold of `get_best_available_q_action` computes the
maximum of the passing items' rewards and the starting accumulator. -/
theorem qBestFoldMax (p : Coords → Bool) :
    ∀ (items : List (Coords × ℚ)) (acc : Option Coords × Option ℚ) (m : ℚ),
    ((items.foldl (qBestStep p) acc).2 = some m) →
    (m ∈ (items.filter (fun kv => p kv.1)).map (·.2) ∨ acc.2 = some m) ∧
    (∀ v ∈ (items.filter (fun kv => p kv.1)).map (·.2), v ≤ m) ∧
    (∀ lv, acc.2 = some lv → lv ≤ m)
  | [], acc, m => by
    intro h
    simp only [List.foldl_nil] at h
    refine ⟨Or.inr h, by simp, fun lv hlv => ?_⟩
    rw [h] at hlv
    exact le_of_eq (Option.some.inj hlv.symm)
  | kv :: rest, acc, m => by
    intro h
    obtain ⟨a1, a2⟩ := acc
    rcases hp : p kv.1 with _ | _
    · rw [List.foldl_cons, qBestStep_skip p _ _ hp] at h
      have ih := qBestFoldMax p rest (a1, a2) m h
      simpa [List.filter_cons, hp] using ih
    · rcases a2 with _ | lv
      · rw [List.foldl_cons, qBestStep_first p _ _ hp] at h
        obtain ⟨ih1, ih2, ih3⟩ := qBestFoldMax p rest (some kv.1, some kv.2) m h
        have hkv : kv.2 ≤ m := ih3 kv.2 rfl
        refine ⟨?_, ?_, ?_⟩
        · refine Or.inl ?_
          simp only [List.filter_cons, hp, if_true, List.map_cons, List.mem_cons]
          rcases ih1 with hmem | heq
          · exact Or.inr hmem
          · exact Or.inl (Option.some.inj heq).symm
        · intro v hv
          simp only [List.filter_cons, hp, if_true, List.map_cons, List.mem_cons] at hv
          rcases hv with hv | hv
          · exact hv ▸ hkv
          · exact ih2 v hv
        · intro lv' hlv'
          cases hlv'
      · rw [List.foldl_cons, qBestStep_cmp p _ _ _ hp] at h
        by_cases hgt : kv.2 > lv
        · rw [if_pos hgt] at h
          obtain ⟨ih1, ih2, ih3⟩ := qBestFoldMax p rest (some kv.1, some kv.2) m h
          have hkv : kv.2 ≤ m := ih3 kv.2 rfl
          have hlvm : lv ≤ m := le_trans (le_of_lt hgt) hkv
          refine ⟨?_, ?_, ?_⟩
          · refine Or.inl ?_
            simp only [List.filter_cons, hp, if_true, List.map_cons, List.mem_cons]
            rcases ih1 with hmem | heq
            · exact Or.inr hmem
            · exact Or.inl (Option.some.inj heq).symm
          · intro v hv
            simp only [List.filter_cons, hp, if_true, List.map_cons, List.mem_cons] at hv
            rcases hv with hv | hv
            · exact hv ▸ hkv
            · exact ih2 v hv
          · intro lv' hlv'
            exact le_trans (le_of_eq (Option.some.inj hlv').symm) hlvm
        · rw [if_neg hgt] at h
          obtain ⟨ih1, ih2, ih3⟩ := qBestFoldMax p rest (a1, some lv) m h
          have hlvm : lv ≤ m := ih3 lv rfl
          have hkv : kv.2 ≤ m := le_trans (not_lt.mp hgt) hlvm
          refine ⟨?_, ?_, ?_⟩
          · rcases ih1 with hmem | heq
            · refine Or.inl ?_
              simp only [List.filter_cons, hp, if_true, List.map_cons, List.mem_cons]
              exact Or.inr hmem
            · exact Or.inr heq
          · intro v hv
            simp only [List.filter_cons, hp, if_true, List.map_cons, List.mem_cons] at hv
            rcases hv with hv | hv
            · exact hv ▸ hkv
            · exact ih2 v hv
          · intro lv' hlv'
            exact le_trans (le_of_eq (Option.some.inj hlv').symm) hlvm

/-- Setting an existing key of an association list (as Python dictionary
assignment does) makes a later lookup return the new value. -/
theorem assocSetLookup {β : Type} (c : Coords) (w : β) :
    ∀ (l : List (Coords × β)) (v : β),
    (l.find? (fun e => e.1 == c)).map (·.2) = some v →
    ((l.map (fun e => if e.1 == c then (e.1, w) else e)).find?
        (fun e => e.1 == c)).map (·.2) = some w
  | [], v, h => by simp [List.find?] at h
  | e :: rest, v, h => by
    rcases he : (e.1 == c) with _ | _
    · rw [List.map_cons, if_neg (by simp [he])]
      rw [List.find?_cons_of_neg _ (by simp [he])]
      rw [List.find?_cons_of_neg _ (by simp [he])] at h
      exact assocSetLookup c w rest v h
    · rw [List.map_cons, if_pos he]
      rw [List.find?_cons_of_pos _ (by exact he)]
      simp

/-- C9: one Q-learning update with the fixed learning rate `α = 0.5`
replaces `Q[s][a]` by `Q[s][a] + 0.5 * (reward + best_future(a) −
Q[s][a])`, where `best_future(a)` is the maximum Q-value among the
actions of state `a` that are currently available (not blocked this
episode) and is `-1` when no action of `a` is available. -/
theorem claim_c9_q_update_rule (table : QTable) (blocked : List Coords)
    (old_state action : Coords) (reward old_q : ℚ) (qsOld qsAct : QState)
    (table' : QTable)
    (h1 : qLookup table old_state = some qsOld)
    (h2 : qaLookup qsOld.q_actions action = some old_q)
    (h3 : qLookup table action = some qsAct)
    (hupd : qUpdate table blocked old_state action reward = some table') :
    ∃ bf : ℚ,
      ((qLookup table' old_state).bind fun qs => qaLookup qs.q_actions action)
        = some (old_q + (1 / 2 : ℚ) * (reward + bf - old_q)) ∧
      ((qsAct.q_actions.filter
          (fun kv => (availableActions qsAct blocked).contains kv.1)).map (·.2) = []
        → bf = -1) ∧
      ((qsAct.q_actions.filter
          (fun kv => (availableActions qsAct blocked).contains kv.1)).map (·.2) ≠ []
        → bf ∈ (qsAct.q_actions.filter
            (fun kv => (availableActions qsAct blocked).contains kv.1)).map (·.2) ∧
          ∀ v ∈ (qsAct.q_actions.filter
            (fun kv => (availableActions qsAct blocked).contains kv.1)).map (·.2),
            v ≤ bf) := by
  unfold qUpdate at hupd
  rw [h1] at hupd
  simp only [Option.some_bind] at hupd
  rw [h2] at hupd
  simp only [Option.some_bind] at hupd
  rw [h3] at hupd
  simp only [Option.some_bind] at hupd
  rcases hbf : (getBestAvailableQAction qsAct blocked).2 with _ | v
  · refine ⟨-1, ?_, fun _ => rfl, fun hne => ?_⟩
    · rw [hbf] at hupd
      simp only [Option.getD_none] at hupd
      have htab := Option.some.inj hupd
      rw [← htab]
      have hl1 := assocSetLookup old_state
        { qsOld with
          q_actions := qaSet qsOld.q_actions action (old_q + 1 / 2 * (reward + -1 - old_q)) }
        table qsOld h1
      unfold qLookup
      rw [hl1]
      simp only [Option.some_bind]
      exact assocSetLookup action _ qsOld.q_actions old_q h2
    · exfalso
      unfold getBestAvailableQAction at hbf
      have hempty := (qBestFoldNoneIff
        ((availableActions qsAct blocked).contains) qsAct.q_actions (none, none)).mp hbf
      exact hne hempty.2
  · have hmax := qBestFoldMax ((availableActions qsAct blocked).contains)
      qsAct.q_actions (none, none) v (by
        unfold getBestAvailableQAction at hbf
        exact hbf)
    obtain ⟨hmem, hbound, -⟩ := hmax
    have hmem' : v ∈ (qsAct.q_actions.filter
        (fun kv => (availableActions qsAct blocked).contains kv.1)).map (·.2) := by
      rcases hmem with hm | hm
      · exact hm
      · cases hm
    refine ⟨v, ?_, fun hemp => ?_, fun _ => ⟨hmem', hbound⟩⟩
    · rw [hbf] at hupd
      simp only [Option.getD_some] at hupd
      have htab := Option.some.inj hupd
      rw [← htab]
      have hl1 := assocSetLookup old_state
        { qsOld with
          q_actions := qaSet qsOld.q_actions action (old_q + 1 / 2 * (reward + v - old_q)) }
        table qsOld h1
      unfold qLookup
      rw [hl1]
      simp only [Option.some_bind]
      exact assocSetLookup action _ qsOld.q_actions old_q h2
    · rw [hemp] at hmem'
      cases hmem'

/-- Witness for C9: a two-state table where every action of the moved-to
state is blocked, so the best future reward falls back to `-1` and the
stored Q-value moves from `2` to `2 + 0.5 * (1 + (-1) - 2) = 1`. -/
theorem claim_c9_q_update_rule_witness :
    qUpdate qTableW [⟨0, 0⟩] ⟨0, 0⟩ ⟨1, 0⟩ 1 = some qTableW' ∧
    ∃ bf : ℚ,
      ((qLookup qTableW' ⟨0, 0⟩).bind fun qs => qaLookup qs.q_actions ⟨1, 0⟩)
        = some (2 + (1 / 2 : ℚ) * (1 + bf - 2)) ∧
      ((qsActW.q_actions.filter
          (fun kv => (availableActions qsActW [⟨0, 0⟩]).contains kv.1)).map (·.2) = []
        → bf = -1) ∧
      ((qsActW.q_actions.filter
          (fun kv => (availableActions qsActW [⟨0, 0⟩]).contains kv.1)).map (·.2) ≠ []
        → bf ∈ (qsActW.q_actions.filter
            (fun kv => (availableActions qsActW [⟨0, 0⟩]).contains kv.1)).map (·.2) ∧
          ∀ v ∈ (qsActW.q_actions.filter
            (fun kv => (availableActions qsActW [⟨0, 0⟩]).contains kv.1)).map (·.2),
            v ≤ bf) := by
  have hupd : qUpdate qTableW [⟨0, 0⟩] ⟨0, 0⟩ ⟨1, 0⟩ 1 = some qTableW' := rfl
  refine ⟨hupd, ?_⟩
  exact claim_c9_q_update_rule qTableW [⟨0, 0⟩] ⟨0, 0⟩ ⟨1, 0⟩ 1 2
    ⟨[(⟨1, 0⟩, 2), (⟨0, 1⟩, 0)], [⟨1, 0⟩, ⟨0, 1⟩]⟩ qsActW qTableW' rfl rfl rfl hupd

/-- C5: for every graph on which the builder completes with no caller
limit, the stored blocker budget equals
`|build_nodes| - max(maxmin_distance - |removed| - |unbuildables| + 1, 0)`,
where the maxmin distance is the one `get_maxmin_distance` actually
measures on the state produced by corridor elimination and
redundant-spawn elimination (named by their defining equations), and the
build/removed/unbuildable sets are exactly the pipeline's; and a
caller-supplied limit at most that value is used instead. -/
theorem claim_c5_tower_budget (nodes : GraphState) (b : Builder)
    (h : mkBuilder nodes none = some b) :
    (∃ csp crs d,
      clearSinglePaths nodes (buildCoordsOf nodes) (spawnCoordsOf nodes)
          (exitCoordsOf nodes) (travCoordsOf nodes) = some csp ∧
      clearRedundantSpawns csp.1 (spawnCoordsOf nodes) = some crs ∧
      (getMaxminDistance .exit crs.2 (travCoordsOf nodes) crs.1).1 = some d ∧
      b.buildCoords = csp.2.1 ∧ b.removed = csp.2.2 ∧
      b.unbuildCoords = unbuildCoordsOf nodes ∧ b.spawnCoords = crs.2 ∧
      b.maxTowers = (b.buildCoords.length : Int) -
        max (d - (b.removed.length : Int) - (b.unbuildCoords.length : Int) + 1) 0) ∧
    (∀ t : Int, t ≤ b.maxTowers →
      mkBuilder nodes (some t) = some { b with maxTowers := t }) := by
  unfold mkBuilder at h
  rcases hcs : clearSinglePaths nodes (buildCoordsOf nodes) (spawnCoordsOf nodes)
      (exitCoordsOf nodes) (travCoordsOf nodes) with _ | csp
  · rw [hcs] at h
    cases h
  rw [hcs] at h
  simp only [Option.some_bind] at h
  rcases hcr : clearRedundantSpawns csp.1 (spawnCoordsOf nodes) with _ | crs
  · rw [hcr] at h
    cases h
  rw [hcr] at h
  simp only [Option.some_bind] at h
  rcases hct : calculateMaxTowers crs.1 crs.2 (travCoordsOf nodes) csp.2.1
      (unbuildCoordsOf nodes) csp.2.2 none with _ | mts
  · rw [hct] at h
    cases h
  rw [hct] at h
  simp only [Option.map_some'] at h
  have hb := (Option.some.inj h).symm
  unfold calculateMaxTowers at hct
  rcases hmm : getMaxminDistance .exit crs.2 (travCoordsOf nodes) crs.1 with ⟨dopt, stPost⟩
  rw [hmm] at hct
  rcases dopt with _ | d
  · cases hct
  simp only [Option.map_some'] at hct
  have hmts := (Option.some.inj hct).symm
  constructor
  · refine ⟨csp, crs, d, rfl, hcr, ?_, ?_, ?_, ?_, ?_, ?_⟩
    · rw [hmm]
    · rw [hb]
    · rw [hb]
    · rw [hb]
    · rw [hb]
    · rw [hb, hmts]
  · intro t ht
    unfold mkBuilder
    rw [hcs]
    simp only [Option.some_bind]
    rw [hcr]
    simp only [Option.some_bind]
    unfold calculateMaxTowers
    rw [hmm]
    simp only [Option.map_some']
    have hposs : t ≤ (csp.2.1.length : Int) -
        max (d - ((csp.2.2.length : Int)) - ((unbuildCoordsOf nodes).length : Int) + 1) 0 := by
      rw [hb, hmts] at ht
      exact ht
    rw [hb, hmts]
    simp only [if_pos hposs]

/-- A non-falsy optional distance is a `some` of a non-zero value. -/
theorem not_falsy_elim (o : Option Int) (h : pyFalsyOptInt o = false) :
    o = some (o.getD 0) ∧ o.getD 0 ≠ 0 := by
  cases o with
  | none => cases h
  | some v =>
    refine ⟨rfl, ?_⟩
    simp only [pyFalsyOptInt, beq_eq_false_iff_ne] at h
    simpa using h

/-- A distance chain yields one distance per source. -/
theorem distChainLength (e : TType) (cur : List Coords) :
    ∀ {srcs : List Coords} {st : GraphState} {l : List Int} {st' : GraphState},
    DistChain e cur srcs st l st' → l.length = srcs.length := by
  intro srcs st l st' h
  induction h with
  | nil => rfl
  | cons s rest st d st2 l st3 _ _ _ ih => simp [ih]

/-- `get_distances` returns a value list with a final state exactly when
that list arises as the per-source distance chain from the input state. -/
theorem getDistances_eq_iff_chain (e : TType) (cur : List Coords) :
    ∀ (srcs : List Coords) (st : GraphState) (l : List Int) (st' : GraphState),
    getDistances e srcs cur st = (some l, st') ↔ DistChain e cur srcs st l st'
  | [], st, l, st' => by
    constructor
    · intro h
      simp only [getDistances] at h
      rw [Prod.ext_iff] at h
      obtain ⟨h1, h2⟩ := h
      obtain rfl := Option.some.inj h1
      obtain rfl := h2
      exact DistChain.nil st
    · intro hc
      cases hc
      rfl
  | s :: rest, st, l, st' => by
    constructor
    · intro h
      simp only [getDistances] at h
      by_cases hf : pyFalsyOptInt (getShortestDistanceAny (unvisitCoords st cur) s e).1
      · rw [if_pos hf] at h
        rw [Prod.ext_iff] at h
        cases h.1
      · rw [if_neg hf] at h
        rw [Prod.ext_iff] at h
        obtain ⟨h1, h2⟩ := h
        obtain ⟨hsome, hnz⟩ := not_falsy_elim _ (by simpa using hf)
        rcases hmap : (getDistances e rest cur
            (getShortestDistanceAny (unvisitCoords st cur) s e).2).1 with _ | l2
        · rw [hmap] at h1
          cases h1
        · rw [hmap] at h1
          simp only [Option.map_some'] at h1
          obtain rfl := Option.some.inj h1
          have hrec : getDistances e rest cur
              (getShortestDistanceAny (unvisitCoords st cur) s e).2 = (some l2, st') := by
            rw [Prod.ext_iff]
            exact ⟨hmap, h2⟩
          have hchain := (getDistances_eq_iff_chain e cur rest _ l2 st').mp hrec
          exact DistChain.cons s rest st _ _ l2 st'
            (by rw [← hsome]) hnz hchain
    · intro hc
      cases hc with
      | cons _ _ _ d st2 l2 _ hbfs hnz hchain =>
        have hrec := (getDistances_eq_iff_chain e cur rest st2 l2 st').mpr hchain
        simp only [getDistances]
        rw [hbfs]
        have hf : pyFalsyOptInt (some d, st2).1 = false := by
          simp only [pyFalsyOptInt, beq_eq_false_iff_ne]
          simpa using hnz
        rw [if_neg (by simp [hf])]
        rw [hrec]
        simp

/-- After a reachable prefix and a first falsy source, `get_distances`
returns `None` and the sources after the falsy one are not processed:
the run equals the run on the truncated source list. -/
theorem getDistances_shortcircuit (e : TType) (cur : List Coords) :
    ∀ (pre : List Coords) (bad : Coords) (post : List Coords) (st : GraphState)
      (l : List Int) (st' : GraphState),
    DistChain e cur pre st l st' →
    pyFalsyOptInt (getShortestDistanceAny (unvisitCoords st' cur) bad e).1 = true →
    getDistances e (pre ++ bad :: post) cur st = getDistances e (pre ++ [bad]) cur st ∧
    (getDistances e (pre ++ bad :: post) cur st).1 = none
  | [], bad, post, st, l, st' => by
    intro hchain hbadf
    cases hchain
    constructor
    · simp only [List.nil_append, getDistances, if_pos hbadf]
    · simp only [List.nil_append, getDistances, if_pos hbadf]
  | p0 :: pre', bad, post, st, l, st' => by
    intro hchain hbadf
    cases hchain with
    | cons _ _ _ d st2 l2 _ hbfs hnz hchain' =>
      have hf : pyFalsyOptInt (getShortestDistanceAny (unvisitCoords st cur) p0 e).1
          = false := by
        rw [hbfs]
        simp only [pyFalsyOptInt, beq_eq_false_iff_ne]
        simpa using hnz
      have hfneg : ¬ pyFalsyOptInt
          (getShortestDistanceAny (unvisitCoords st cur) p0 e).1 = true := by
        simp [hf]
      obtain ⟨ihEq, ihNone⟩ := getDistances_shortcircuit e cur pre' bad post st2 l2 st'
        hchain' hbadf
      constructor
      · simp only [List.cons_append, getDistances]
        rw [if_neg hfneg, if_neg hfneg]
        simp only [hbfs, List.append_eq]
        rw [ihEq]
      · simp only [List.cons_append, getDistances]
        rw [if_neg hfneg]
        simp only [hbfs, List.append_eq]
        rw [ihNone]
        rfl

/-- `get_distances` returns `None` exactly when the sources split as a
reachable prefix followed by a first falsy (unreachable) source, and in
that case the run is indistinguishable from one that stops at that
source: the sources after it are not processed. -/
theorem getDistances_none_iff (e : TType) (cur : List Coords) :
    ∀ (srcs : List Coords) (st : GraphState),
    ((getDistances e srcs cur st).1 = none ↔
      ∃ pre bad post, srcs = pre ++ bad :: post ∧
        (∃ l st', DistChain e cur pre st l st' ∧
          pyFalsyOptInt (getShortestDistanceAny (unvisitCoords st' cur) bad e).1 = true) ∧
        getDistances e srcs cur st = getDistances e (pre ++ [bad]) cur st)
  | [], st => by
    constructor
    · intro h
      cases h
    · rintro ⟨pre, bad, post, habs, -, -⟩
      exact absurd habs (by simp)
  | s :: rest, st => by
    by_cases hf : pyFalsyOptInt (getShortestDistanceAny (unvisitCoords st cur) s e).1
    · constructor
      · intro _
        exact ⟨[], s, rest, rfl, ⟨[], st, DistChain.nil st, hf⟩,
          (getDistances_shortcircuit e cur [] s rest st [] st (DistChain.nil st) hf).1⟩
      · intro _
        simp only [getDistances, if_pos hf]
    · constructor
      · intro h
        simp only [getDistances, if_neg hf] at h
        rcases hmap : (getDistances e rest cur
            (getShortestDistanceAny (unvisitCoords st cur) s e).2).1 with _ | l2
        · have hnone := (getDistances_none_iff e cur rest
            (getShortestDistanceAny (unvisitCoords st cur) s e).2).mp hmap
          obtain ⟨pre, bad, post, hsplit, ⟨l, st', hchain, hbadf⟩, -⟩ := hnone
          obtain ⟨hsome, hnz⟩ := not_falsy_elim _ (by simpa using hf)
          have hchain2 : DistChain e cur (s :: pre) st
              ((getShortestDistanceAny (unvisitCoords st cur) s e).1.getD 0 :: l) st' :=
            DistChain.cons s pre st _ _ l st' (by rw [← hsome]) hnz hchain
          refine ⟨s :: pre, bad, post, by simp [hsplit], ⟨_, st', hchain2, hbadf⟩, ?_⟩
          have := (getDistances_shortcircuit e cur (s :: pre) bad post st _ st'
            hchain2 hbadf).1
          rw [hsplit]
          exact this
        · rw [hmap] at h
          simp at h
      · rintro ⟨pre, bad, post, hsplit, ⟨l, st', hchain, hbadf⟩, -⟩
        rw [hsplit]
        exact (getDistances_shortcircuit e cur pre bad post st l st' hchain hbadf).2

/-- C7: `get_distances` returns `None` if and only if some source fails
the reachability test — short-circuiting at the first such source, with
the later sources not processed (the run equals the run on the truncated
source list) — and otherwise returns exactly one shortest-hop distance
per source, each computed by `get_shortest_distance_any` after
`unvisit_nodes`, with the graph state threaded through. -/
theorem claim_c7_multi_source_distances (e : TType) (cur srcs : List Coords)
    (st : GraphState) :
    (∀ l st', getDistances e srcs cur st = (some l, st') ↔
      DistChain e cur srcs st l st') ∧
    (∀ l st', DistChain e cur srcs st l st' → l.length = srcs.length) ∧
    ((getDistances e srcs cur st).1 = none ↔
      ∃ pre bad post, srcs = pre ++ bad :: post ∧
        (∃ l st', DistChain e cur pre st l st' ∧
          pyFalsyOptInt (getShortestDistanceAny (unvisitCoords st' cur) bad e).1 = true) ∧
        getDistances e srcs cur st = getDistances e (pre ++ [bad]) cur st) :=
  ⟨fun l st' => getDistances_eq_iff_chain e cur srcs st l st',
   fun _ _ h => distChainLength e cur h,
   getDistances_none_iff e cur srcs st⟩

/-- The per-spawn probe loop can only raise the spawn-blocked error. -/
theorem probeSpawns_error (allCoords : List Coords) :
    ∀ (cs : List Coords) (st : GraphState) (found : List Coords) (e' : String),
    probeSpawns allCoords st cs found = some (.error e') → e' = "a spawn is blocked"
  | [], st, found, e' => by
    intro h
    simp only [probeSpawns] at h
    simp at h
  | c :: rest, st, found, e' => by
    intro h
    simp only [probeSpawns] at h
    rcases hd : dfsAnyTType ((resetCoords st allCoords).length + 2)
        (resetCoords st allCoords) c .exit with _ | r
    · rw [hd] at h
      cases h
    · rw [hd] at h
      obtain ⟨fnd, st2⟩ := r
      rcases fnd with _ | ec
      · exact (Except.error.inj (Option.some.inj h)).symm
      · exact probeSpawns_error allCoords rest st2 _ e' h

/-- The per-exit probe loop can only raise the exit-blocked error. -/
theorem probeExits_error (allCoords : List Coords) :
    ∀ (cs : List Coords) (st : GraphState) (e' : String),
    probeExits allCoords st cs = some (.error e') → e' = "an exit is blocked"
  | [], st, e' => by
    intro h
    simp only [probeExits] at h
    simp at h
  | c :: rest, st, e' => by
    intro h
    simp only [probeExits] at h
    rcases hd : dfsAnyTType ((resetCoords st allCoords).length + 2)
        (resetCoords st allCoords) c .spawn with _ | r
    · rw [hd] at h
      cases h
    · rw [hd] at h
      obtain ⟨fnd, st2⟩ := r
      rcases fnd with _ | sc
      · exact (Except.error.inj (Option.some.inj h)).symm
      · exact probeExits_error allCoords rest st2 e' h

/-- The route check can only raise the spawn-blocked or exit-blocked
errors. -/
theorem validateRoute_errors (tiles : List Tile) (nc : Nat) (e' : String)
    (h : validateRoute tiles nc = some (.error e')) :
    e' = "a spawn is blocked" ∨ e' = "an exit is blocked" := by
  unfold validateRoute at h
  rcases hA : routeSpawnPhase tiles nc with _ | p1
  · rw [hA] at h
    cases h
  rw [hA] at h
  simp only [Option.some_bind] at h
  rcases hB : probeSpawns (routeAll tiles nc) p1.1
      ((routeSpawnCs tiles nc).filter p1.2.contains) [] with _ | r2
  · rw [hB] at h
    cases h
  rw [hB] at h
  simp only [Option.some_bind] at h
  rcases r2 with e2 | p2
  · simp only [routeAfterSpawnProbe] at h
    have he2 : e2 = e' := Except.error.inj (Option.some.inj h)
    exact Or.inl (he2 ▸ probeSpawns_error _ _ _ _ _ hB)
  · simp only [routeAfterSpawnProbe] at h
    rcases hC : (if (routeExitCs tiles nc).filter (fun c => !p2.2.contains c) != [] then
        reduceExitClusters (routeAll tiles nc) (resetCoords p2.1 (routeAll tiles nc))
          ((routeExitCs tiles nc).filter (fun c => !p2.2.contains c))
          ((routeExitCs tiles nc).filter (fun c => !p2.2.contains c)) p2.2
      else some (p2.1, (routeExitCs tiles nc).filter (fun c => !p2.2.contains c), p2.2))
      with _ | p3
    · rw [hC] at h
      simp at h
    · rw [hC] at h
      simp only [Option.some_bind] at h
      rcases hD : probeExits (routeAll tiles nc) p3.1
          (((routeExitCs tiles nc).filter (fun c => !p2.2.contains c)).filter
            p3.2.1.contains) with _ | r4
      · rw [hD] at h
        simp at h
      · rw [hD] at h
        simp only [Option.some_bind] at h
        rcases r4 with e4 | st4
        · simp only [routeAfterExitProbe] at h
          have he4 : e4 = e' := Except.error.inj (Option.some.inj h)
          exact Or.inr (he4 ▸ probeExits_error _ _ _ _ hD)
        · simp only [routeAfterExitProbe] at h
          simp at h

/-- C8: map validation is fail-fast in a fixed order: no spawn tile
raises the not-enough-spawns error whatever else is wrong; otherwise no
exit tile raises the not-enough-exits error; only with both present does
the route check run, and it can only raise the spawn-blocked or
exit-blocked errors; a grid passing all checks raises nothing. -/
theorem claim_c8_validate_map_order :
    (∀ tiles nc, spawnTiles tiles = [] →
      validateMap tiles nc = some (.error "not enough spawns")) ∧
    (∀ tiles nc, spawnTiles tiles ≠ [] → exitTiles tiles = [] →
      validateMap tiles nc = some (.error "not enough exits")) ∧
    (∀ tiles nc, spawnTiles tiles ≠ [] → exitTiles tiles ≠ [] →
      validateMap tiles nc = validateRoute tiles nc) ∧
    (∀ tiles nc e', validateRoute tiles nc = some (.error e') →
      e' = "a spawn is blocked" ∨ e' = "an exit is blocked") ∧
    (∀ tiles nc, spawnTiles tiles ≠ [] → exitTiles tiles ≠ [] →
      validateRoute tiles nc = some (.ok ()) →
      validateMap tiles nc = some (.ok ())) := by
  refine ⟨?_, ?_, ?_, ?_, ?_⟩
  · intro tiles nc h
    simp [validateMap, h]
  · intro tiles nc h1 h2
    simp [validateMap, h1, h2, List.length_eq_zero]
  · intro tiles nc h1 h2
    simp [validateMap, h1, h2, List.length_eq_zero]
  · exact fun tiles nc e' h => validateRoute_errors tiles nc e' h
  · intro tiles nc h1 h2 h3
    rw [show validateMap tiles nc = validateRoute tiles nc from by
      simp [validateMap, h1, h2, List.length_eq_zero]]
    exact h3

/-- Witness for C8: a spawn-less grid, an exit-less grid, a blocked
grid, and a passing grid, each exercising one branch. -/
theorem claim_c8_validate_map_order_witness :
    validateMap [(⟨0, 0⟩, .basic)] 4 = some (.error "not enough spawns") ∧
    validateMap [(⟨0, 0⟩, .spawn)] 4 = some (.error "not enough exits") ∧
    validateMap [(⟨0, 0⟩, .spawn), (⟨2, 0⟩, .exit)] 4
      = validateRoute [(⟨0, 0⟩, .spawn), (⟨2, 0⟩, .exit)] 4 ∧
    ("a spawn is blocked" = "a spawn is blocked" ∨
      "a spawn is blocked" = "an exit is blocked") ∧
    validateMap threeCellTiles 4 = some (.ok ()) :=
  ⟨claim_c8_validate_map_order.1 [(⟨0, 0⟩, .basic)] 4 (by decide),
   claim_c8_validate_map_order.2.1 [(⟨0, 0⟩, .spawn)] 4 (by decide) (by decide),
   claim_c8_validate_map_order.2.2.1 [(⟨0, 0⟩, .spawn), (⟨2, 0⟩, .exit)] 4
     (by decide) (by decide),
   claim_c8_validate_map_order.2.2.2.1 [(⟨0, 0⟩, .spawn), (⟨2, 0⟩, .exit)] 4
     "a spawn is blocked" (by decide),
   claim_c8_validate_map_order.2.2.2.2 threeCellTiles 4 (by decide) (by decide)
     (by decide)⟩

/-- Mapping a coord/neighbor-preserving function over the state keeps
its shape. -/
theorem shapeOf_map (st : GraphState) (g : Node → Node)
    (hg : ∀ n, (g n).coords = n.coords ∧ (g n).neighbors = n.neighbors) :
    shapeOf (st.map g) = shapeOf st := by
  unfold shapeOf
  rw [List.map_map]
  exact List.map_congr_left (fun n _ => by rw [Function.comp_apply, (hg n).1, (hg n).2])

/-- Mapping a coord/ttype-preserving function over the state keeps its
types. -/
theorem ttypesOf_map (st : GraphState) (g : Node → Node)
    (hg : ∀ n, (g n).coords = n.coords ∧ (g n).ttype = n.ttype) :
    ttypesOf (st.map g) = ttypesOf st := by
  unfold ttypesOf
  rw [List.map_map]
  exact List.map_congr_left (fun n _ => by rw [Function.comp_apply, (hg n).1, (hg n).2])

theorem frames_refl (st : GraphState) : Frames st st := ⟨rfl, rfl⟩

theorem frames_trans {a b c : GraphState} (h1 : Frames a b) (h2 : Frames b c) :
    Frames a c := ⟨h2.1.trans h1.1, h2.2.trans h1.2⟩

theorem frames_setVisited (st : GraphState) (c : Coords) (b : Bool) :
    Frames st (setVisited st c b) := by
  refine ⟨shapeOf_map st _ (fun n => ?_), ttypesOf_map st _ (fun n => ?_)⟩ <;>
    by_cases h : n.coords = c <;> simp [h]

theorem frames_setDistance (st : GraphState) (c : Coords) (d : Int) :
    Frames st (setDistance st c d) := by
  refine ⟨shapeOf_map st _ (fun n => ?_), ttypesOf_map st _ (fun n => ?_)⟩ <;>
    by_cases h : n.coords = c <;> simp [h]

theorem frames_unvisitCoords (st : GraphState) (cs : List Coords) :
    Frames st (unvisitCoords st cs) := by
  refine ⟨shapeOf_map st _ (fun n => ?_), ttypesOf_map st _ (fun n => ?_)⟩ <;>
    by_cases h : n.coords ∈ cs <;> simp [h]

theorem frames_resetCoords (st : GraphState) (cs : List Coords) :
    Frames st (resetCoords st cs) := by
  refine ⟨shapeOf_map st _ (fun n => ?_), ttypesOf_map st _ (fun n => ?_)⟩ <;>
    by_cases h : n.coords ∈ cs <;> simp [h]

/-- The BFS neighbor expansion step mutates only `visited`/`distance`. -/
theorem frames_bfsExpandFold (e : TType) (nd : Int) :
    ∀ (ncs : List Coords) (acc : Option Int × GraphState × List Coords),
    Frames acc.2.1 ((ncs.foldl (fun acc nc =>
      match acc with
      | (some d, st1, q1) => (some d, st1, q1)
      | (none, st1, q1) =>
        match findNode st1 nc with
        | none => (none, st1, q1)
        | some nb =>
          if !nb.visited && nb.ttype.is_traversable then
            if nb.ttype == e then (some (nd + 1), st1, q1)
            else (none, setDistance (setVisited st1 nc true) nc (nd + 1), q1 ++ [nc])
          else (none, st1, q1)) acc)).2.1
  | [], acc => frames_refl _
  | nc :: rest, acc => by
    rw [List.foldl_cons]
    rcases acc with ⟨o, st1, q1⟩
    rcases o with _ | d
    · rcases hfind : findNode st1 nc with _ | nb
      · simpa [hfind] using frames_bfsExpandFold e nd rest (none, st1, q1)
      · by_cases htrav : (!nb.visited && nb.ttype.is_traversable) = true
        · by_cases hend : (nb.ttype == e) = true
          · simpa [hfind, htrav, hend] using
              frames_bfsExpandFold e nd rest (some (nd + 1), st1, q1)
          · have step : Frames st1
                (setDistance (setVisited st1 nc true) nc (nd + 1)) :=
              frames_trans (frames_setVisited st1 nc true)
                (frames_setDistance (setVisited st1 nc true) nc (nd + 1))
            have ih := frames_bfsExpandFold e nd rest
              (none, setDistance (setVisited st1 nc true) nc (nd + 1), q1 ++ [nc])
            refine frames_trans step ?_
            simpa [hfind, htrav, hend] using ih
        · simpa [hfind, htrav] using frames_bfsExpandFold e nd rest (none, st1, q1)
    · simpa using frames_bfsExpandFold e nd rest (some d, st1, q1)

/-- `bfsExpand` preserves shape and types. -/
theorem frames_bfsExpand (e : TType) (nd : Int) (ncs : List Coords)
    (st : GraphState) (q : List Coords) :
    Frames st (bfsExpand e nd ncs st q).2.1 :=
  frames_bfsExpandFold e nd ncs (none, st, q)

/-- The BFS dequeuing loop preserves shape and types. -/
theorem frames_bfsLoop (e : TType) :
    ∀ (fuel : Nat) (st : GraphState) (q : List Coords),
    Frames st (bfsLoop e fuel st q).2
  | 0, st, _ => frames_refl st
  | _ + 1, st, [] => frames_refl st
  | fuel + 1, st, c :: q => by
    simp only [bfsLoop]
    rcases hfind : findNode st c with _ | node
    · exact frames_bfsLoop e fuel st q
    · show Frames st (match bfsExpand e node.distance node.neighbors st q with
        | (some d, st2, _) => (some d, st2)
        | (none, st2, q2) => bfsLoop e fuel st2 q2).2
      rcases hexp : bfsExpand e node.distance node.neighbors st q with ⟨o, st2, q2⟩
      have hframe : Frames st st2 := by
        have := frames_bfsExpand e node.distance node.neighbors st q
        rw [hexp] at this
        exact this
      rcases o with _ | d
      · exact frames_trans hframe (frames_bfsLoop e fuel st2 q2)
      · exact hframe

/-- `get_shortest_distance_any` preserves shape and types. -/
theorem frames_getShortestDistanceAny (st : GraphState) (s : Coords) (e : TType) :
    Frames st (getShortestDistanceAny st s e).2 := by
  unfold getShortestDistanceAny
  exact frames_trans
    (frames_trans (frames_setVisited st s true)
      (frames_setDistance (setVisited st s true) s 0))
    (frames_bfsLoop e _ _ [s])

/-- `get_distances` preserves shape and types. -/
theorem frames_getDistances (e : TType) (cur : List Coords) :
    ∀ (srcs : List Coords) (st : GraphState),
    Frames st (getDistances e srcs cur st).2
  | [], st => frames_refl st
  | s :: rest, st => by
    simp only [getDistances]
    by_cases hf : pyFalsyOptInt (getShortestDistanceAny (unvisitCoords st cur) s e).1 = true
    · rw [if_pos hf]
      exact frames_trans (frames_unvisitCoords st cur)
        (frames_getShortestDistanceAny (unvisitCoords st cur) s e)
    · rw [if_neg hf]
      exact frames_trans
        (frames_trans (frames_unvisitCoords st cur)
          (frames_getShortestDistanceAny (unvisitCoords st cur) s e))
        (frames_getDistances e cur rest _)

/-- `setTType` rewrites exactly the matching keys of the type table. -/
theorem ttypesOf_setTType (st : GraphState) (c : Coords) (t : TType) :
    ttypesOf (setTType st c t)
      = (ttypesOf st).map (fun p => if p.1 == c then (p.1, t) else p) := by
  unfold ttypesOf setTType setNode
  rw [List.map_map, List.map_map]
  refine List.map_congr_left (fun n _ => ?_)
  by_cases h : n.coords = c <;> simp [h]

/-- `setTType` keeps the shape. -/
theorem shapeOf_setTType (st : GraphState) (c : Coords) (t : TType) :
    shapeOf (setTType st c t) = shapeOf st :=
  (shapeOf_map st _ (fun n => by by_cases h : n.coords = c <;> simp [h]))

/-- Marking a whole combination rewrites exactly its keys. -/
theorem ttypesOf_markFold (t : TType) :
    ∀ (combo : List Coords) (st : GraphState),
    ttypesOf (combo.foldl (fun s c => setTType s c t) st)
      = (ttypesOf st).map (fun p => if combo.contains p.1 then (p.1, t) else p)
  | [], st => by
    simp only [List.foldl_nil]
    exact ((List.map_congr_left (fun p _ => by simp)).trans (List.map_id _)).symm
  | c :: rest, st => by
    rw [List.foldl_cons, ttypesOf_markFold t rest (setTType st c t), ttypesOf_setTType,
      List.map_map]
    refine List.map_congr_left (fun p _ => ?_)
    by_cases h1 : p.1 = c
    · by_cases h2 : c ∈ rest <;> simp [h1, h2]
    · by_cases h2 : p.1 ∈ rest <;> simp [h1, h2]

/-- Marking a whole combination keeps the shape. -/
theorem shapeOf_markFold (t : TType) :
    ∀ (combo : List Coords) (st : GraphState),
    shapeOf (combo.foldl (fun s c => setTType s c t) st) = shapeOf st
  | [], _ => rfl
  | c :: rest, st => by
    rw [List.foldl_cons, shapeOf_markFold t rest (setTType st c t), shapeOf_setTType]

/-- Overwriting the keys of a combination twice keeps only the second
write. -/
theorem owCompose (combo : List Coords) (t1 t2 : TType)
    (X : List (Coords × TType)) :
    (X.map (fun p => if combo.contains p.1 then (p.1, t1) else p)).map
        (fun p => if combo.contains p.1 then (p.1, t2) else p)
      = X.map (fun p => if combo.contains p.1 then (p.1, t2) else p) := by
  rw [List.map_map]
  refine List.map_congr_left (fun p _ => ?_)
  by_cases h : p.1 ∈ combo <;> simp [h]

/-- Overwriting keys whose values already hold the written type is the
identity. -/
theorem owId (combo : List Coords) (t : TType) :
    ∀ (X : List (Coords × TType)),
    (∀ p ∈ X, combo.contains p.1 = true → p.2 = t) →
    X.map (fun p => if combo.contains p.1 then (p.1, t) else p) = X := by
  intro X hX
  refine (List.map_congr_left (fun p hp => ?_)).trans (List.map_id _)
  by_cases h : p.1 ∈ combo
  · have hc : combo.contains p.1 = true := by simpa using h
    rw [if_pos hc, ← hX p hp hc]
    exact Prod.mk.eta
  · have hc : ¬ combo.contains p.1 = true := by simpa using h
    rw [if_neg hc]
    rfl

/-- Every generated combination draws from the input list. -/
theorem combos_subset : ∀ (k : Nat) (l : List Coords) (combo : List Coords),
    combo ∈ combos k l → ∀ c ∈ combo, c ∈ l
  | 0, l, combo => by
    intro h c hc
    simp only [combos, List.mem_singleton] at h
    subst h
    cases hc
  | _ + 1, [], combo => by
    intro h
    simp [combos] at h
  | k + 1, x :: xs, combo => by
    intro h c hc
    simp only [combos, List.mem_append, List.mem_map] at h
    rcases h with ⟨combo', hmem, rfl⟩ | h
    · rcases List.mem_cons.mp hc with rfl | hc'
      · exact List.mem_cons_self _ _
      · exact List.mem_cons_of_mem _ (combos_subset k xs combo' hmem c hc')
    · exact List.mem_cons_of_mem _ (combos_subset (k + 1) xs combo h c hc)

/-- One naive evaluation cycle — reset, mark `Occupied`, measure,
revert — preserves shape, and preserves types when the combination's
nodes all held the basic type. -/
theorem frames_naiveCycle (spawn trav combo : List Coords) (st : GraphState)
    (hb : ∀ p ∈ ttypesOf st, combo.contains p.1 = true → p.2 = TType.basic) :
    Frames st (revertToBuildables combo
      (calculateMazeDistances spawn trav combo (resetCoords st trav)).2) := by
  have h1 : Frames st (resetCoords st trav) := frames_resetCoords st trav
  have hM : ttypesOf (combo.foldl (fun s c => setTType s c TType.occupied)
      (resetCoords st trav))
      = (ttypesOf st).map (fun p => if combo.contains p.1 then (p.1, TType.occupied) else p) := by
    rw [ttypesOf_markFold, h1.2]
  have hMs : shapeOf (combo.foldl (fun s c => setTType s c TType.occupied)
      (resetCoords st trav)) = shapeOf st := by
    rw [shapeOf_markFold, h1.1]
  have h2 : Frames (combo.foldl (fun s c => setTType s c TType.occupied)
      (resetCoords st trav))
      (calculateMazeDistances spawn trav combo (resetCoords st trav)).2 := by
    unfold calculateMazeDistances
    exact frames_getDistances .exit trav spawn _
  constructor
  · unfold revertToBuildables
    rw [shapeOf_markFold, h2.1, hMs]
  · unfold revertToBuildables
    rw [ttypesOf_markFold, h2.2, hM, owCompose, owId combo TType.basic (ttypesOf st) hb]

/-- The per-count combination loop preserves shape and types when every
build node holds the basic type. -/
theorem frames_bestCombosFold (spawn trav : List Coords) :
    ∀ (cl : List (List Coords)) (acc : (Option (List Int) × List (List Coords)) × GraphState),
    (∀ combo ∈ cl, ∀ p ∈ ttypesOf acc.2, combo.contains p.1 = true → p.2 = TType.basic) →
    Frames acc.2 ((cl.foldl (fun acc combo =>
      let r := calculateMazeDistances spawn trav combo (resetCoords acc.2 trav)
      (match r.1 with
       | none => acc.1
       | some dl =>
         match acc.1.1 with
         | none => (some dl, [combo])
         | some bl =>
           if distGt dl bl then (some dl, [combo])
           else if distEq dl bl then (acc.1.1, acc.1.2 ++ [combo])
           else acc.1,
       revertToBuildables combo r.2)) acc)).2
  | [], acc, _ => frames_refl _
  | combo :: rest, acc, hb => by
    rw [List.foldl_cons]
    have hcyc : Frames acc.2 (revertToBuildables combo
        (calculateMazeDistances spawn trav combo (resetCoords acc.2 trav)).2) :=
      frames_naiveCycle spawn trav combo acc.2 (hb combo (by simp))
    have hbrest : ∀ combo' ∈ rest, ∀ p ∈ ttypesOf (revertToBuildables combo
        (calculateMazeDistances spawn trav combo (resetCoords acc.2 trav)).2),
        combo'.contains p.1 = true → p.2 = TType.basic := by
      intro combo' hc' p hp
      rw [hcyc.2] at hp
      exact hb combo' (by simp [hc']) p hp
    exact frames_trans hcyc (frames_bestCombosFold spawn trav rest _ hbrest)

/-- `get_best_tower_combinations` preserves shape and types when every
build node holds the basic type. -/
theorem frames_getBestTowerCombinations (spawn trav build : List Coords)
    (k : Nat) (st : GraphState)
    (hb : ∀ p ∈ ttypesOf st, build.contains p.1 = true → p.2 = TType.basic) :
    Frames st (getBestTowerCombinations spawn trav build k st).2 := by
  unfold getBestTowerCombinations
  refine frames_bestCombosFold spawn trav (combos k build) ((none, []), st)
    (fun combo hc p hp hmem => hb p hp ?_)
  have hsub : ∀ c ∈ combo, c ∈ build := by
    intro c hcmem
    exact combos_subset k build combo hc c hcmem
  have hpc : p.1 ∈ combo := by simpa using hmem
  simpa using hsub p.1 hpc

/-- The tie-free marking expansion of `get_nodes_on_shortest_paths`
mutates only `visited`/`distance`. -/
theorem frames_markExpandFold (nd : Int) :
    ∀ (ncs : List Coords) (acc : GraphState × List Coords),
    Frames acc.1 ((ncs.foldl (fun acc nc =>
      match findNode acc.1 nc with
      | none => acc
      | some nb =>
        if !nb.visited && nb.ttype.is_traversable then
          (setDistance (setVisited acc.1 nc true) nc (nd + 1), acc.2 ++ [nc])
        else acc) acc)).1
  | [], _ => frames_refl _
  | nc :: rest, acc => by
    rw [List.foldl_cons]
    rcases hfind : findNode acc.1 nc with _ | nb
    · simpa [hfind] using frames_markExpandFold nd rest acc
    · by_cases htrav : (!nb.visited && nb.ttype.is_traversable) = true
      · have step : Frames acc.1 (setDistance (setVisited acc.1 nc true) nc (nd + 1)) :=
          frames_trans (frames_setVisited acc.1 nc true)
            (frames_setDistance (setVisited acc.1 nc true) nc (nd + 1))
        refine frames_trans step ?_
        simpa [hfind, htrav] using frames_markExpandFold nd rest
          (setDistance (setVisited acc.1 nc true) nc (nd + 1), acc.2 ++ [nc])
      · simpa [hfind, htrav] using frames_markExpandFold nd rest acc

/-- `markExpand` preserves shape and types. -/
theorem frames_markExpand (nd : Int) (ncs : List Coords) (st : GraphState)
    (q : List Coords) : Frames st (markExpand nd ncs st q).1 :=
  frames_markExpandFold nd ncs (st, q)

/-- The main loop of `get_nodes_on_shortest_paths` preserves shape and
types. -/
theorem frames_nspLoop (e : TType) :
    ∀ (fuel : Nat) (st : GraphState) (q : List Coords)
      (res : Option (Int × List Coords)) (st' : GraphState),
    nspLoop e fuel st q = some (res, st') → Frames st st'
  | 0, st, _, res, st' => by
    intro h
    cases h
  | _ + 1, st, [], res, st' => by
    intro h
    simp only [nspLoop] at h
    obtain ⟨-, rfl⟩ := Prod.mk.injEq .. ▸ Option.some.inj h
    exact frames_refl st
  | fuel + 1, st, c :: q, res, st' => by
    intro h
    simp only [nspLoop] at h
    split at h
    · exact frames_nspLoop e fuel st q res st' h
    · rename_i node hfind
      split at h
      · split at h
        · cases h
        · split at h
          · cases h
          · obtain ⟨-, rfl⟩ := Prod.mk.injEq .. ▸ Option.some.inj h
            exact frames_refl st
      · exact frames_trans (frames_markExpand node.distance node.neighbors st q)
          (frames_nspLoop e fuel _ _ res st' h)

/-- `get_nodes_on_shortest_paths` preserves shape and types. -/
theorem frames_getNodesOnShortestPaths (st : GraphState) (s : Coords) (e : TType)
    (res : Option (Int × List Coords)) (st' : GraphState)
    (h : getNodesOnShortestPaths st s e = some (res, st')) : Frames st st' := by
  unfold getNodesOnShortestPaths at h
  exact frames_trans
    (frames_trans (frames_setVisited st s true)
      (frames_setDistance (setVisited st s true) s 0))
    (frames_nspLoop e _ _ [s] res st' h)

/-- The source loop of `get_nodes_on_shortest_paths_multiple` preserves
shape and types. -/
theorem frames_nspMultiLoop (e : TType) :
    ∀ (srcs cur : List Coords) (st : GraphState) (dists : List Int)
      (path : List Coords) (r : Option (List Int) × List Coords) (st' : GraphState),
    getNodesOnShortestPathsMultiple.nspMultiLoop e srcs cur st dists path = some (r, st') →
    Frames st st'
  | [], cur, st, dists, path, r, st' => by
    intro h
    simp only [getNodesOnShortestPathsMultiple.nspMultiLoop] at h
    obtain ⟨-, rfl⟩ := Prod.mk.injEq .. ▸ Option.some.inj h
    exact frames_refl st
  | s :: rest, cur, st, dists, path, r, st' => by
    intro h
    simp only [getNodesOnShortestPathsMultiple.nspMultiLoop] at h
    split at h
    · cases h
    · rename_i resi st2 hn
      have hframe : Frames st st2 :=
        frames_trans (frames_resetCoords st cur)
          (frames_getNodesOnShortestPaths (resetCoords st cur) s e resi st2 hn)
      split at h
      · obtain ⟨-, rfl⟩ := Prod.mk.injEq .. ▸ Option.some.inj h
        exact hframe
      · rename_i d nodes
        split at h
        · obtain ⟨-, rfl⟩ := Prod.mk.injEq .. ▸ Option.some.inj h
          exact hframe
        · exact frames_trans hframe
            (frames_nspMultiLoop e rest cur st2 _ _ r st' h)

/-- `get_nodes_on_shortest_paths_multiple` preserves shape and types. -/
theorem frames_getNodesOnShortestPathsMultiple (e : TType)
    (srcs cur : List Coords) (st : GraphState)
    (r : Option (List Int) × List Coords) (st' : GraphState)
    (h : getNodesOnShortestPathsMultiple e srcs cur st = some (r, st')) :
    Frames st st' := by
  unfold getNodesOnShortestPathsMultiple at h
  rcases srcs with _ | ⟨s, rest⟩
  · obtain ⟨-, rfl⟩ := Prod.mk.injEq .. ▸ Option.some.inj h
    exact frames_refl st
  · exact frames_nspMultiLoop e (s :: rest) cur st [] [] r st' h

/-- The coordinate keys of the typed view are the node coordinates. -/
theorem keysOf_ttypes (st : GraphState) :
    (ttypesOf st).map (fun p => p.1) = st.map (fun n => n.coords) := by
  unfold ttypesOf
  rw [List.map_map]
  rfl

/-- A frame-equal state keeps every type-level invariant. -/
theorem occupiableBasic_of_frames {st st' : GraphState} (h : Frames st st')
    (hb : OccupiableBasic st) : OccupiableBasic st' := by
  intro p hp
  exact hb p (h.2 ▸ hp)

/-- A frame-equal state keeps the one-node-per-coordinate invariant. -/
theorem keysNodup_of_frames {st st' : GraphState} (h : Frames st st')
    (hk : KeysNodup st) : KeysNodup st' := by
  unfold KeysNodup at *
  rw [← keysOf_ttypes, h.2, keysOf_ttypes]
  exact hk

/-- Overwriting an absent key is the identity. -/
theorem owSingleAbsent (c : Coords) (t : TType) (X : List (Coords × TType))
    (habs : c ∉ X.map (fun p => p.1)) :
    X.map (fun p => if p.1 == c then (p.1, t) else p) = X := by
  refine (List.map_congr_left (fun p hp => ?_)).trans (List.map_id _)
  have hne : ¬ (p.1 == c) = true := by
    simp only [beq_iff_eq]
    intro hEq
    exact habs (hEq ▸ List.mem_map_of_mem _ hp)
  rw [if_neg hne]
  rfl

/-- On a duplicate-free association list, overwriting a key with the
value it already holds is the identity. -/
theorem owSingleId (c : Coords) (t : TType) :
    ∀ (X : List (Coords × TType)), (X.map (fun p => p.1)).Nodup → (c, t) ∈ X →
    X.map (fun p => if p.1 == c then (p.1, t) else p) = X
  | [], _, hmem => absurd hmem (List.not_mem_nil _)
  | q :: rest, hnd, hmem => by
    rw [List.map_cons] at hnd ⊢
    obtain ⟨hq, hrest⟩ := List.nodup_cons.mp hnd
    rcases List.mem_cons.mp hmem with hq1 | hmemR
    · subst hq1
      rw [if_pos (by simp)]
      simp only [List.cons.injEq]
      exact ⟨trivial, owSingleAbsent c t rest (by simpa using hq)⟩
    · have hckeys : c ∈ rest.map (fun p => p.1) := by
        simpa using List.mem_map_of_mem (fun p : Coords × TType => p.1) hmemR
      have hq1c : ¬ (q.1 == c) = true := by
        simp only [beq_iff_eq]
        intro hEq
        exact hq (hEq.symm ▸ hckeys)
      rw [if_neg hq1c]
      simp only [List.cons.injEq]
      exact ⟨trivial, owSingleId c t rest hrest hmemR⟩

/-- Two writes to the same key collapse to the last one. -/
theorem owSingleCompose (c : Coords) (t1 t2 : TType) (X : List (Coords × TType)) :
    (X.map (fun p => if p.1 == c then (p.1, t1) else p)).map
        (fun p => if p.1 == c then (p.1, t2) else p)
      = X.map (fun p => if p.1 == c then (p.1, t2) else p) := by
  rw [List.map_map]
  refine List.map_congr_left (fun p _ => ?_)
  by_cases h : p.1 = c <;> simp [h]

/-- A successful node lookup returns a member node with the requested
coordinates. -/
theorem findNode_mem (st : GraphState) (c : Coords) (nd : Node)
    (h : findNode st c = some nd) : nd ∈ st ∧ nd.coords = c := by
  unfold findNode at h
  refine ⟨List.mem_of_find?_eq_some h, ?_⟩
  have hp := List.find?_some h
  simpa using hp

/-- A successful node lookup witnesses its type in the typed view. -/
theorem findNode_ttype_mem (st : GraphState) (c : Coords) (nd : Node)
    (h : findNode st c = some nd) : (c, nd.ttype) ∈ ttypesOf st := by
  obtain ⟨hmem, hc⟩ := findNode_mem st c nd h
  unfold ttypesOf
  exact hc ▸ List.mem_map_of_mem _ hmem

/-- Marking a node `Occupied` keeps the no-buildable-path invariant
(an occupied node does not allow building). -/
theorem occupiableBasic_setOccupied (st : GraphState) (c : Coords)
    (hb : OccupiableBasic st) : OccupiableBasic (setTType st c TType.occupied) := by
  intro p hp hallow
  rw [ttypesOf_setTType] at hp
  rcases List.mem_map.mp hp with ⟨q, hq, hpq⟩
  by_cases h : (q.1 == c) = true
  · rw [if_pos h] at hpq
    subst hpq
    simp [TType.allow_building] at hallow
  · rw [if_neg h] at hpq
    exact hb p (hpq ▸ hq) hallow

/-- `setTType` keeps the coordinate keys, hence their distinctness. -/
theorem keysNodup_setTType (st : GraphState) (c : Coords) (t : TType)
    (hk : KeysNodup st) : KeysNodup (setTType st c t) := by
  unfold KeysNodup at *
  rw [← keysOf_ttypes, ttypesOf_setTType, List.map_map]
  have hcongr : (ttypesOf st).map ((fun p : Coords × TType => p.1) ∘
        (fun p => if p.1 == c then (p.1, t) else p))
      = (ttypesOf st).map (fun p => p.1) :=
    List.map_congr_left (fun p _ => by by_cases h : p.1 = c <;> simp [h])
  rw [hcongr, keysOf_ttypes]
  exact hk

/-- The cutoff recursion's occupy/search/restore roundtrip is a frame:
when the node picked for a tower allows building (hence, under the
invariant, is `Basic`), writing `Occupied`, searching, and writing
`Basic` back restores the state's types exactly. -/
theorem frames_occupyRestore (st st3 : GraphState) (c : Coords) (nd : Node)
    (hb : OccupiableBasic st) (hk : KeysNodup st)
    (hfind : findNode st c = some nd) (hallow : nd.ttype.allow_building = true)
    (hf2 : Frames (setTType st c TType.occupied) st3) :
    Frames st (setTType st3 c TType.basic) := by
  have hmem : (c, TType.basic) ∈ ttypesOf st := by
    have h1 := findNode_ttype_mem st c nd hfind
    have h2 : nd.ttype = TType.basic := hb (c, nd.ttype) h1 hallow
    rw [← h2]
    exact h1
  have hndkeys : ((ttypesOf st).map (fun p => p.1)).Nodup := by
    rw [keysOf_ttypes]
    exact hk
  constructor
  · rw [shapeOf_setTType, hf2.1, shapeOf_setTType]
  · rw [ttypesOf_setTType, hf2.2, ttypesOf_setTType, owSingleCompose]
    exact owSingleId c TType.basic (ttypesOf st) hndkeys hmem

/-- The candidate loop of `cut_off_route` is a frame whenever its
recursive call is: each iteration occupies a buildable node, recurses,
and restores the node to `Basic`, which — under the no-buildable-path
invariant on duplicate-free keys — is exactly the type it had. -/
theorem frames_cutLoopGen
    (recur : List Coords → Int → CutState → Option CutState)
    (hrec : ∀ comb tl csr outr, OccupiableBasic csr.st → KeysNodup csr.st →
      recur comb tl csr = some outr → Frames csr.st outr.st) :
    ∀ (nodes2 combination : List Coords) (towersLeft : Int)
      (cs out : CutState),
    OccupiableBasic cs.st → KeysNodup cs.st →
    cutLoopGen recur combination towersLeft cs nodes2 = some out →
    Frames cs.st out.st
  | [], combination, tl, cs, out => by
    intro _ _ h
    simp only [cutLoopGen] at h
    obtain rfl := Option.some.inj h
    exact frames_refl _
  | c :: rest, combination, tl, cs, out => by
    intro hb hk h
    simp only [cutLoopGen] at h
    split at h
    · exact frames_cutLoopGen recur hrec rest combination tl cs out hb hk h
    · rename_i nd hfind
      split at h
      · exact frames_cutLoopGen recur hrec rest combination tl cs out hb hk h
      · rename_i hcond
        have hallow : nd.ttype.allow_building = true := by
          simpa using hcond
        split at h
        · cases h
        · rename_i cs3 hrec3
          have hf2 : Frames (setTType cs.st c TType.occupied) cs3.st :=
            hrec (combination ++ [c]) (tl - 1)
              { cs with st := setTType cs.st c TType.occupied } cs3
              (occupiableBasic_setOccupied cs.st c hb)
              (keysNodup_setTType cs.st c TType.occupied hk) hrec3
          have hround : Frames cs.st (setTType cs3.st c TType.basic) :=
            frames_occupyRestore cs.st cs3.st c nd hb hk hfind hallow hf2
          have hb4 : OccupiableBasic (setTType cs3.st c TType.basic) :=
            occupiableBasic_of_frames hround hb
          have hk4 : KeysNodup (setTType cs3.st c TType.basic) :=
            keysNodup_of_frames hround hk
          split at h
          · cases h
          · rename_i p2 hp2
            split at h
            · split at h
              · cases h
              · rename_i p3 hp3
                exact frames_trans hround
                  (frames_cutLoopGen recur hrec rest combination tl _ out hb4 hk4 h)
            · exact frames_trans hround
                (frames_cutLoopGen recur hrec rest combination tl _ out hb4 hk4 h)

/-- `cut_off_route` is a frame on states satisfying the
no-buildable-path and duplicate-free-keys invariants: every type it
writes is reverted before it returns. -/
theorem frames_cutOffRoute (spawn trav : List Coords) (mt : Int) :
    ∀ (fuel : Nat) (combination : List Coords) (towersLeft : Int)
      (cs out : CutState),
    OccupiableBasic cs.st → KeysNodup cs.st →
    cutOffRoute spawn trav mt fuel combination towersLeft cs = some out →
    Frames cs.st out.st
  | 0, _, _, _, _ => by
    intro _ _ h
    exact Option.noConfusion h
  | fuel + 1, combination, towersLeft, cs₀, out => by
    intro hb hk h
    have hrecAll : ∀ comb tl csr outr, OccupiableBasic csr.st → KeysNodup csr.st →
        cutOffRoute spawn trav mt fuel comb tl csr = some outr →
        Frames csr.st outr.st :=
      fun comb tl csr outr hbx hkx hx =>
        frames_cutOffRoute spawn trav mt fuel comb tl csr outr hbx hkx hx
    simp only [cutOffRoute] at h
    split at h
    · cases h
    · rename_i distsOpt nodes st2 hnsp
      have hf1 : Frames cs₀.st st2 :=
        frames_getNodesOnShortestPathsMultiple TType.exit spawn trav cs₀.st
          (distsOpt, nodes) st2 hnsp
      have hb2 : OccupiableBasic st2 := occupiableBasic_of_frames hf1 hb
      have hk2 : KeysNodup st2 := keysNodup_of_frames hf1 hk
      have hlam : ∀ (cs1 : CutState) (nodes2 : List Coords), cs1.st = st2 →
          cutLoopGen (fun comb2 tl2 csr =>
              cutOffRoute spawn trav mt fuel comb2 tl2 csr)
            combination towersLeft cs1 nodes2 = some out →
          Frames cs₀.st out.st := by
        intro cs1 nodes2 hst hcl
        have hbx : OccupiableBasic cs1.st := by
          rw [hst]
          exact hb2
        have hkx : KeysNodup cs1.st := by
          rw [hst]
          exact hk2
        have hmain := frames_cutLoopGen
          (fun comb2 tl2 csr => cutOffRoute spawn trav mt fuel comb2 tl2 csr)
          (fun comb tl csr outr hbb hkk hxx => hrecAll comb tl csr outr hbb hkk hxx)
          nodes2 combination towersLeft cs1 out hbx hkx hcl
        rw [hst] at hmain
        exact frames_trans hf1 hmain
      repeat' split at h
      all_goals first
        | exact Option.noConfusion h
        | (obtain rfl := Option.some.inj h; exact hf1)
        | exact hlam _ _ rfl h

/-- The per-budget fold of `NaiveBuilder.generate_optimal_mazes` is a
frame when every buildable combination node is `Basic`. -/
theorem frames_naiveFold (spawn trav build : List Coords) :
    ∀ (ks : List Nat) (acc : (List (List Coords) × Option (List Int)) × GraphState),
    (∀ p ∈ ttypesOf acc.2, build.contains p.1 = true → p.2 = TType.basic) →
    Frames acc.2 ((ks.foldl (fun acc k =>
      let r := getBestTowerCombinations spawn trav build k acc.2
      (match r.1.1 with
       | none => acc.1
       | some dl =>
         match acc.1.2 with
         | none => (r.1.2, some dl)
         | some bl =>
           if distGt dl bl then (r.1.2, some dl)
           else if distEq dl bl then (acc.1.1 ++ r.1.2, acc.1.2)
           else acc.1,
       r.2)) acc)).2
  | [], _, _ => frames_refl _
  | k :: ks, acc, hb => by
    rw [List.foldl_cons]
    have hstep : Frames acc.2 (getBestTowerCombinations spawn trav build k acc.2).2 :=
      frames_getBestTowerCombinations spawn trav build k acc.2 hb
    refine frames_trans hstep ?_
    have hb2 : ∀ p ∈ ttypesOf (getBestTowerCombinations spawn trav build k acc.2).2,
        build.contains p.1 = true → p.2 = TType.basic := by
      intro p hp
      exact hb p (hstep.2 ▸ hp)
    exact frames_naiveFold spawn trav build ks _ hb2

/-- `NaiveBuilder.generate_optimal_mazes` is a frame when every node of
the builder's build set is `Basic`. -/
theorem frames_naiveGenerate (b : Builder)
    (hb : ∀ p ∈ ttypesOf b.st, b.buildCoords.contains p.1 = true → p.2 = TType.basic) :
    Frames b.st (naiveGenerate b).2.2 := by
  unfold naiveGenerate
  exact frames_naiveFold b.spawnCoords b.travCoords b.buildCoords
    (towerCounts b.maxTowers) (([], none), b.st) hb

/-- Witness for C7: on the 3-cell grid the single-spawn run yields the
chain `[2]`, and on a single isolated spawn the run returns `None` by
the short-circuit characterization. -/
theorem claim_c7_multi_source_distances_witness :
    DistChain .exit (travCoordsOf threeCellGraph) [⟨0, 0⟩] threeCellGraph [2]
      (getDistances .exit [⟨0, 0⟩] (travCoordsOf threeCellGraph) threeCellGraph).2 ∧
    (getDistances .exit [⟨0, 0⟩] [⟨0, 0⟩] (buildGraph [(⟨0, 0⟩, .spawn)] 4)).1 = none :=
  ⟨((claim_c7_multi_source_distances .exit (travCoordsOf threeCellGraph) [⟨0, 0⟩]
      threeCellGraph).1 [2] _).mp (by decide),
   ((claim_c7_multi_source_distances .exit [⟨0, 0⟩] [⟨0, 0⟩]
      (buildGraph [(⟨0, 0⟩, .spawn)] 4)).2.2).mpr
     ⟨[], ⟨0, 0⟩, [], rfl, ⟨[], _, DistChain.nil _, by decide⟩, rfl⟩⟩

/-- Witness for C5 on the 3-cell grid, also exercising the limit branch
at the caller limit `-1 ≤ 0`. -/
theorem claim_c5_tower_budget_witness :
    mkBuilder threeCellGraph none = some threeCellBuilder ∧
    ((∃ csp crs d,
        clearSinglePaths threeCellGraph (buildCoordsOf threeCellGraph)
            (spawnCoordsOf threeCellGraph) (exitCoordsOf threeCellGraph)
            (travCoordsOf threeCellGraph) = some csp ∧
        clearRedundantSpawns csp.1 (spawnCoordsOf threeCellGraph) = some crs ∧
        (getMaxminDistance .exit crs.2 (travCoordsOf threeCellGraph) crs.1).1 = some d ∧
        threeCellBuilder.buildCoords = csp.2.1 ∧ threeCellBuilder.removed = csp.2.2 ∧
        threeCellBuilder.unbuildCoords = unbuildCoordsOf threeCellGraph ∧
        threeCellBuilder.spawnCoords = crs.2 ∧
        threeCellBuilder.maxTowers = (threeCellBuilder.buildCoords.length : Int) -
          max (d - (threeCellBuilder.removed.length : Int) -
            (threeCellBuilder.unbuildCoords.length : Int) + 1) 0) ∧
      (∀ t : Int, t ≤ threeCellBuilder.maxTowers →
        mkBuilder threeCellGraph (some t) = some { threeCellBuilder with maxTowers := t })) ∧
    mkBuilder threeCellGraph (some (-1)) = some { threeCellBuilder with maxTowers := -1 } :=
  ⟨by decide, claim_c5_tower_budget threeCellGraph threeCellBuilder (by decide),
   (claim_c5_tower_budget threeCellGraph threeCellBuilder (by decide)).2 (-1) (by decide)⟩

/-- C3 (amended): both searches restore every temporarily occupied node
to `TTypeBasic`, which matches the original state exactly when the
affected nodes were `Basic` to begin with. For the exhaustive search it
suffices that every node of the build set is `Basic`; for the pruned
cutoff search, that every building-allowing node is `Basic` and that
coordinates are unique. The coordinates and the neighbor topology are
preserved by both searches (`Frames` states both). -/
theorem claim_c3_search_frame_amended :
    (∀ b : Builder,
      (∀ p ∈ ttypesOf b.st, b.buildCoords.contains p.1 = true → p.2 = TType.basic) →
      Frames b.st (naiveGenerate b).2.2) ∧
    (∀ (b : Builder) (fuel : Nat) (out : CutState),
      OccupiableBasic b.st → KeysNodup b.st →
      cutoffGenerate b fuel = some out → Frames b.st out.st) := by
  constructor
  · exact fun b hb => frames_naiveGenerate b hb
  · intro b fuel out hb hk h
    unfold cutoffGenerate at h
    exact frames_cutOffRoute b.spawnCoords b.travCoords b.maxTowers fuel []
      b.maxTowers _ out hb hk h

/-- Witness for the amended C3 frame theorem at the 3-cell builder: its
build set is empty (so trivially all-`Basic`), its state satisfies both
invariants, and both searches leave the persistent state frame-equal. -/
theorem claim_c3_search_frame_amended_witness :
    Frames threeCellBuilder.st (naiveGenerate threeCellBuilder).2.2 ∧
    Frames threeCellBuilder.st c3OutW.st :=
  ⟨claim_c3_search_frame_amended.1 threeCellBuilder (by decide),
   claim_c3_search_frame_amended.2 threeCellBuilder 5 c3OutW (by decide) (by decide)
     (by decide)⟩

end TDMaze
